import Mathlib

/-!
Verification development for the FastREST request-dispatch core.

This file gives a shallow embedding, in Lean 4, of the parts of the FastREST
repository that the specification's claims are about:

* the route table and the path-matching algorithm (`src/router.go`:
  `add`, `find`, `matchPath`);
* the middleware chain builder and the per-request dispatcher
  (`app.go`: `buildChain`, `handleRequest`, `recordMetrics`,
  `acquireCtx`, `releaseCtx`);
* the request context (`src/context/context.go`: `Ctx`, `AuthInfo` and the
  response helpers the dispatch path uses);
* the auth middlewares (`middlewares/auth.go`: `BasicAuth`, `BearerAuth`,
  `APIKeyAuth` and the combined `Auth`);
* the metrics collector (`src/metrics/metrics.go`: `IncRequestTotal`,
  `ObserveLatency`, `IncError`, `ToPrometheus`, `ToJSON`).

Modelling conventions:

* Go strings are Lean `String`s; the byte-level Go helpers
  (`strings.Split`, `strings.SplitN`, `strings.HasPrefix`, slicing) are
  re-implemented structurally over `String.data` so every definition is
  executable and kernel-reducible.  All separators used by the code are
  single ASCII characters, so splitting on a `Char` is faithful.
* Go maps are association lists.  Assignment `m[k] = v` is `alInsert`
  (replace-or-append), lookup is `List.lookup`.  `sync.Map` counters are
  association lists as well; `LoadOrStore` + atomic add is `bump`.
* Mutable state is passed explicitly: each Go method that mutates its
  receiver becomes a function returning the updated value.
* `error` results are `Option Err` (`none` = nil error).
* `float64` is modelled by `Rat`; the latency sums only ever hold sums of
  integral millisecond values, and both renderings perform the identical
  division, so exact rational arithmetic is a faithful model of the
  computation the code performs.
* Wall-clock quantities (`time.Since`, request duration) are inputs:
  the dispatcher takes the observed duration in milliseconds, and the
  renderers take the current uptime value.
-/

/-- Error values returned by handlers (Go `error`; `none` models nil). -/
abbrev Err := String

/-! ## String helpers (models of the Go `strings` functions used) -/

/-- Auxiliary worker for `splitc`: `acc` holds the current segment reversed. -/
def splitcAux (sep : Char) : List Char → List Char → List String
  | [], acc => [String.mk acc.reverse]
  | c :: cs, acc =>
      if c = sep then String.mk acc.reverse :: splitcAux sep cs []
      else splitcAux sep cs (c :: acc)

/-- Model of Go `strings.Split(s, sep)` for a one-character separator
(the code only ever splits on `"/"`, `"_"` and `":"`). -/
def splitc (sep : Char) (s : String) : List String :=
  splitcAux sep s.data []

/-- Joins segments back with the separator (Go `strings.Join`). -/
def joinSep (sep : Char) : List String → String
  | [] => ""
  | [x] => x
  | x :: xs => x ++ String.mk [sep] ++ joinSep sep xs

/-- Model of Go `strings.SplitN(s, sep, n)` for `n ≥ 1` and a one-character
separator: at most `n` substrings, the last one being the unsplit rest. -/
def splitNc (s : String) (sep : Char) (n : Nat) : List String :=
  if n = 0 then []
  else
    let parts := splitc sep s
    if parts.length ≤ n then parts
    else parts.take (n - 1) ++ [joinSep sep (parts.drop (n - 1))]

/-- Model of Go `strings.HasPrefix(s, p)`. -/
def strStarts (s p : String) : Bool :=
  p.data.isPrefixOf s.data

/-- Model of the Go slice expression `s[n:]` (only applied after an ASCII
prefix check, where bytes and characters coincide). -/
def strDrop (s : String) (n : Nat) : String :=
  String.mk (s.data.drop n)

/-- Model of Go `strings.HasSuffix(s, p)` (bytes and characters coincide
for the ASCII suffixes the code uses). -/
def strEnds (s p : String) : Bool :=
  p.data.isSuffixOf s.data

/-- Model of Go `strings.TrimSuffix(s, suffix)` after a successful
`strings.HasSuffix` check: drops the last `n` characters. -/
def strDropRight (s : String) (n : Nat) : String :=
  String.mk (s.data.take (s.data.length - n))

/-- Decimal digit character. -/
def digitChar (d : Nat) : Char := Char.ofNat (48 + d)

/-- Fuelled decimal rendering of a natural number (the fuel `n + 1` always
suffices); structural so that it evaluates in the kernel. -/
def natDigitsAux : Nat → Nat → List Char
  | 0, _ => []
  | fuel + 1, n =>
      if n < 10 then [digitChar n]
      else natDigitsAux fuel (n / 10) ++ [digitChar (n % 10)]

/-- Model of Go `fmt.Sprintf("%d", n)` for naturals. -/
def natRepr (n : Nat) : String := String.mk (natDigitsAux (n + 1) n)

/-- Model of Go `fmt.Sprintf("%d", i)` for integers. -/
def intRepr (i : Int) : String :=
  if i < 0 then "-" ++ natRepr i.natAbs else natRepr i.natAbs

/-- Insertion into a sorted list of strings, used by `sortStrings`. -/
def insertSorted (x : String) : List String → List String
  | [] => [x]
  | y :: ys => if x ≤ y then x :: y :: ys else y :: insertSorted x ys

/-- Model of Go `sort.Strings`: a stable sort by the lexicographic order on
strings (Go sorts bytewise; for UTF-8 data bytewise and codepoint-wise
orders agree). -/
def sortStrings : List String → List String
  | [] => []
  | x :: xs => insertSorted x (sortStrings xs)

/-! ## Association lists (models of Go maps) -/

/-- Go map assignment `m[k] = v`: replace the binding of `k` if present,
append it otherwise. -/
def alInsert {α : Type} : List (String × α) → String → α → List (String × α)
  | [], k, v => [(k, v)]
  | (k', v') :: rest, k, v =>
      if k' = k then (k, v) :: rest else (k', v') :: alInsert rest k v

/-! ## Data model: request context (`context/context.go`) -/

/-- Go struct `context.AuthInfo` (fields lower-cased for Lean: `Type` is a
Lean keyword). -/
structure AuthInfo where
  type : String
  value : String
  username : String
  password : String
  valid : Bool
deriving DecidableEq, Repr

/-- The request half of the transport handle: method, path and headers of
the incoming request (the parts of `fasthttp.RequestCtx` the core reads). -/
structure Request where
  method : String
  path : String
  headers : List (String × String)
deriving DecidableEq, Repr

/-- Response bodies the dispatch path can produce.  `jsonObj` models the
JSON marshalling of a `map[string]string` (which cannot fail). -/
inductive Body where
  | empty : Body
  | jsonObj (fields : List (String × String)) : Body
deriving DecidableEq, Repr

/-- The response half of the transport handle.  `status = 0` models an
unset status code (fasthttp serialises an unset code as 200). -/
structure Response where
  status : Int
  contentType : String
  headers : List (String × String)
  body : Body
deriving DecidableEq, Repr

/-- The transport-owned request/response pair (`*fasthttp.RequestCtx`).
`log` is a ghost observation log used only to state the spec's
middleware-ordering scenario (middlewares append identifiers to it). -/
structure ReqCtx where
  request : Request
  response : Response
  log : List String
deriving DecidableEq, Repr

/-- Go struct `context.Ctx`.  `RequestCtx` is `none` when the transport
handle is detached (nil); `Logger` records whether a logger reference is
attached (the logger itself is external). -/
structure Ctx where
  RequestCtx : Option ReqCtx
  Params : List (String × String)
  Locals : List (String × String)
  Logger : Bool
  Auth : Option AuthInfo
deriving DecidableEq, Repr

/-- Go `Handler`: `func(*Ctx) error`, state-passing style. -/
abbrev Handler := Ctx → Ctx × Option Err

/-- Go `Middleware`: `func(Handler) Handler`. -/
abbrev Middleware := Handler → Handler

/-- Go `(*Ctx).Get`: request-header lookup (fasthttp's case-insensitive
canonicalisation is not modelled; the code always uses one spelling). -/
def Ctx.Get (c : Ctx) (key : String) : String :=
  match c.RequestCtx with
  | some f => (f.request.headers.lookup key).getD ""
  | none => ""

/-- Go `(*Ctx).Set`: sets a response header. -/
def Ctx.Set (c : Ctx) (key value : String) : Ctx :=
  match c.RequestCtx with
  | some f =>
      let resp := { f.response with headers := alInsert f.response.headers key value }
      { c with RequestCtx := some { f with response := resp } }
  | none => c

/-- Go `(*Ctx).Status`: sets the response status code. -/
def Ctx.Status (c : Ctx) (code : Int) : Ctx :=
  match c.RequestCtx with
  | some f =>
      { c with RequestCtx := some { f with response := { f.response with status := code } } }
  | none => c

/-- Go `(*Ctx).JSON`: sets content type and status and marshals a string
map as the body; marshalling a `map[string]string` cannot fail, so the
returned error is nil. -/
def Ctx.JSON (c : Ctx) (status : Int) (v : List (String × String)) : Ctx × Option Err :=
  match c.RequestCtx with
  | some f =>
      let resp := { f.response with
        contentType := "application/json", status := status, body := Body.jsonObj v }
      ({ c with RequestCtx := some { f with response := resp } }, none)
  | none => (c, none)

/-- Go `(*Ctx).Unauthorized`. -/
def Ctx.Unauthorized (c : Ctx) (msg : String) : Ctx × Option Err :=
  Ctx.JSON c 401 [("error", msg)]

/-- Go `(*Ctx).SetAuth`. -/
def Ctx.SetAuth (c : Ctx) (a : Option AuthInfo) : Ctx :=
  { c with Auth := a }

/-- Ghost helper: appends an entry to the observation log of the attached
transport handle (used to state the spec's middleware-ordering scenario). -/
def ctxLog (c : Ctx) (entry : String) : Ctx :=
  match c.RequestCtx with
  | some f => { c with RequestCtx := some { f with log := f.log ++ [entry] } }
  | none => c

/-! ## Route table (`src/router.go`) -/

/-- Go struct `Route` (field `middleware` is unexported in the source). -/
structure Route where
  Method : String
  Path : String
  Handlers : List Handler
  middleware : List Middleware

/-- Go struct `Router`.  The Go field `prefix` is called `pre` here
(`prefix` is a Lean keyword); `routes` is the shared route slice, and the
`sync.RWMutex` is synchronisation only and has no sequential content. -/
structure RouterState where
  pre : String
  routes : List Route
  middleware : List Middleware

/-- Go `newRouter`. -/
def newRouter (p : String) : RouterState :=
  { pre := p, routes := [], middleware := [] }

/-- Go `(*Router).add`: appends a Route built from the accumulated prefix,
the handlers and a copy of the router's middleware list.  Note that the
source has no failure path and performs no validation of `path`. -/
def add (r : RouterState) (method path : String) (handlers : List Handler) : RouterState :=
  { r with routes := r.routes ++
      [{ Method := method
         Path := r.pre ++ path
         Handlers := handlers
         middleware := r.middleware }] }

/-- Worker for `matchPath`: walks pattern and path segments in lockstep,
accumulating the parameter map exactly as the Go loop does. -/
def matchSegs : List String → List String → List (String × String) →
    Option (List (String × String))
  | [], [], params => some params
  | p :: ps, q :: qs, params =>
      if strStarts p ":" then matchSegs ps qs (alInsert params (strDrop p 1) q)
      else if p = q then matchSegs ps qs params
      else none
  | _, _, _ => none

/-- Go `matchPath`: split pattern and path on `/`; lengths must agree; a
`:name` segment binds unconditionally, a literal segment must be equal. -/
def matchPath (pattern path : String) : Option (List (String × String)) :=
  let patternParts := splitc '/' pattern
  let pathParts := splitc '/' path
  if patternParts.length ≠ pathParts.length then none
  else matchSegs patternParts pathParts []

/-- Go `(*Router).find`: linear scan over the route slice in registration
order; first route with equal method and matching pattern wins. -/
def find : List Route → String → String → Option (Route × List (String × String))
  | [], _, _ => none
  | route :: rest, method, path =>
      if route.Method ≠ method then find rest method path
      else
        match matchPath route.Path path with
        | some params => some (route, params)
        | none => find rest method path

/-! ## Context pool (`app.go`: `pool.New`, `acquireCtx`, `releaseCtx`) -/

/-- The pool's `New` function: a zero-valued `Ctx` with fresh empty maps
(`RequestCtx`, `Logger` and `Auth` are Go zero values: nil). -/
def newCtx : Ctx :=
  { RequestCtx := none, Params := [], Locals := [], Logger := false, Auth := none }

/-- Go `(*App).acquireCtx`: attaches the transport handle and logger and
clears the `Params` and `Locals` maps with delete loops.  The source does
not touch `c.Auth` here (nor does `releaseCtx`). -/
def acquireCtx (c : Ctx) (fctx : ReqCtx) : Ctx :=
  { c with RequestCtx := some fctx, Logger := true, Params := [], Locals := [] }

/-- Go `(*App).releaseCtx`: detaches the transport handle and the logger
reference and returns the object to the pool. -/
def releaseCtx (c : Ctx) : Ctx :=
  { c with RequestCtx := none, Logger := false }

/-! ## Metrics collector (`src/metrics/metrics.go`) -/

/-- Go struct `LatencyBucket`: running sum and count.  The Go field `sum`
is a float64, but it only ever accumulates `float64(duration.Milliseconds())`
values, i.e. integers, on which float64 addition is exact, so an `Int` sum
is a faithful model; the division producing the mean happens at render
time over `Rat`. -/
structure LatencyBucket where
  sum : Int
  count : Int
deriving DecidableEq, Repr

/-- A value stored in the `requestLatency` `sync.Map`: the Go code keeps
`*sync.Mutex` entries under `method_path` keys and `*LatencyBucket`
entries under `method_path + "_bucket"` keys in the same map, and later
type-asserts what it loads — an assertion that panics when the two key
families collide.  The mutex itself carries no sequential state. -/
inductive LatEntry where
  | mutex : LatEntry
  | bucket (b : LatencyBucket) : LatEntry
deriving DecidableEq, Repr

/-- The three `sync.Map`s of Go struct `Metrics` (plus the log-count map
and the active-connections gauge), each as an association list.
`requestLatency` holds both entry kinds under their actual keys, exactly
as the Go map does. -/
structure MetricsState where
  requestTotal : List (String × Int)
  errorTotal : List (String × Int)
  requestLatency : List (String × LatEntry)
  logCount : List (String × Int)
  activeConns : Int
deriving DecidableEq, Repr

/-- `LoadOrStore(key, new(int64))` followed by an atomic add of 1. -/
def bump (l : List (String × Int)) (key : String) : List (String × Int) :=
  alInsert l key (((l.lookup key).getD 0) + 1)

/-- Go `(*Metrics).IncRequestTotal`: key `method_path_status`. -/
def IncRequestTotal (m : MetricsState) (method path : String) (status : Int) : MetricsState :=
  { m with requestTotal := bump m.requestTotal (method ++ "_" ++ path ++ "_" ++ intRepr status) }

/-- The bucket half of `ObserveLatency`, after the mutex was obtained:
`LoadOrStore(key + "_bucket", &LatencyBucket{})` followed by the
`bucketVal.(*LatencyBucket)` assertion (`none` models its panic on a
mutex entry) and the locked `sum += float64(ms); count++` update; a
freshly stored zero bucket is updated in place, giving `{durMs, 1}`. -/
def observeInBucket (l : List (String × LatEntry)) (key : String) (durMs : Int) :
    Option (List (String × LatEntry)) :=
  match l.lookup (key ++ "_bucket") with
  | some LatEntry.mutex => none
  | some (LatEntry.bucket b) =>
      some (alInsert l (key ++ "_bucket")
        (LatEntry.bucket { sum := b.sum + durMs, count := b.count + 1 }))
  | none =>
      some (l ++ [(key ++ "_bucket", LatEntry.bucket { sum := durMs, count := 1 })])

/-- Go `(*Metrics).ObserveLatency`.  First `LoadOrStore(key, &sync.Mutex{})`
followed by the `val.(*sync.Mutex)` assertion: loading a bucket under the
plain key panics (`none`); a missing entry stores a fresh mutex.  Then the
bucket half runs.  `durMs` is `duration.Milliseconds()`. -/
def ObserveLatency (m : MetricsState) (method path : String) (durMs : Int) :
    Option MetricsState :=
  let key := method ++ "_" ++ path
  match m.requestLatency.lookup key with
  | some (LatEntry.bucket _) => none
  | some LatEntry.mutex =>
      (observeInBucket m.requestLatency key durMs).map
        (fun l => { m with requestLatency := l })
  | none =>
      (observeInBucket (m.requestLatency ++ [(key, LatEntry.mutex)]) key durMs).map
        (fun l => { m with requestLatency := l })

/-- Go `(*Metrics).IncError`: key `method_path_errorType`. -/
def IncError (m : MetricsState) (method path errorType : String) : MetricsState :=
  { m with errorTotal := bump m.errorTotal (method ++ "_" ++ path ++ "_" ++ errorType) }

/-- One line of the plain-text (Prometheus) exposition, carrying the label
decomposition and the numeric value the code computes for it (the
subsequent `fmt.Sprintf` stringification is presentation only). -/
inductive PromLine where
  | request (method path status : String) (value : Int)
  | latency (method path : String) (value : Rat)
  | error (method path kind : String) (value : Int)
  | activeConns (value : Int)
  | uptime (value : Rat)
deriving DecidableEq, Repr

/-- Go `(*Metrics).ToPrometheus` is modelled as one definition per section
(its three loops), assembled below; `up` models
`time.Since(m.startTime).Seconds()`.

The `http_requests_total` section: collect the keys, sort them, load each
counter and emit a line when the key splits into three label parts. -/
def promRequestLines (m : MetricsState) : List PromLine :=
  (sortStrings (m.requestTotal.map Prod.fst)).filterMap (fun key =>
    match m.requestTotal.lookup key with
    | some v =>
        match splitNc key '_' 3 with
        | [a, b, c] => some (PromLine.request a b c v)
        | _ => none
    | none => none)

/-- The key collection of the `http_request_duration_ms` section: Range
over the latency map keeping the keys with the `_bucket` suffix, then
`sort.Strings`. -/
def promLatencyKeys (m : MetricsState) : List String :=
  sortStrings ((m.requestLatency.map Prod.fst).filter (fun k => strEnds k "_bucket"))

/-- The loop body of the `http_request_duration_ms` section, over the
collected keys in order: each key is loaded and type-asserted as
`*LatencyBucket` — the assertion panics (`none`) on a mutex entry (and a
nil load would panic the same way); a bucket with positive count whose
trimmed base key splits into two label parts yields a line. -/
def latLinesGo (m : MetricsState) : List String → Option (List PromLine)
  | [] => some []
  | key :: keys =>
      match m.requestLatency.lookup key with
      | some (LatEntry.bucket bucket) =>
          (latLinesGo m keys).map (fun rest =>
            if 0 < bucket.count then
              match splitNc (strDropRight key 7) '_' 2 with
              | [a, b] =>
                  PromLine.latency a b ((bucket.sum : Rat) / (bucket.count : Rat)) :: rest
              | _ => rest
            else rest)
      | _ => none

/-- The `http_errors_total` section, like the request section. -/
def promErrorLines (m : MetricsState) : List PromLine :=
  (sortStrings (m.errorTotal.map Prod.fst)).filterMap (fun key =>
    match m.errorTotal.lookup key with
    | some v =>
        match splitNc key '_' 3 with
        | [a, b, c] => some (PromLine.error a b c v)
        | _ => none
    | none => none)

/-- Go `(*Metrics).ToPrometheus` assembled from its sections, ending with
the two scalar gauges; `none` models the panic raised in the latency
section (the partially built string is discarded by the panic). -/
def ToPrometheus (m : MetricsState) (up : Rat) : Option (List PromLine) :=
  (latLinesGo m (promLatencyKeys m)).map (fun latLines =>
    promRequestLines m ++ latLines ++ promErrorLines m ++
      [PromLine.activeConns m.activeConns, PromLine.uptime up])

/-- Go struct `MetricsJSON`: the structured snapshot. -/
structure MetricsJSON where
  Requests : List (String × Int)
  Errors : List (String × Int)
  Latencies : List (String × Rat)
  Logs : List (String × Int)
  ActiveConns : Int
  UptimeSecond : Rat
deriving DecidableEq, Repr

/-- The latency Range of Go `(*Metrics).ToJSON`: every entry whose key
carries the `_bucket` suffix is type-asserted as `*LatencyBucket` — the
assertion panics (`none`) on a mutex entry — and each bucket with positive
count is stored under its trimmed base key with its mean computed as
sum/count. -/
def jsonLatencies : List (String × LatEntry) → Option (List (String × Rat))
  | [] => some []
  | (k, e) :: rest =>
      if strEnds k "_bucket" then
        match e with
        | LatEntry.mutex => none
        | LatEntry.bucket b =>
            (jsonLatencies rest).map (fun tl =>
              if 0 < b.count then
                (strDropRight k 7, (b.sum : Rat) / (b.count : Rat)) :: tl
              else tl)
      else jsonLatencies rest

/-- Go `(*Metrics).ToJSON`: copies the counter maps keyed by the composite
key strings and computes each latency mean at render time; `none` models
the panic of the latency Range's type assertion. -/
def ToJSON (m : MetricsState) (up : Rat) : Option MetricsJSON :=
  (jsonLatencies m.requestLatency).map (fun lats =>
    { Requests := m.requestTotal
      Errors := m.errorTotal
      Latencies := lats
      Logs := m.logCount
      ActiveConns := m.activeConns
      UptimeSecond := up })

/-! ## Auth middlewares (`middlewares/auth.go`) -/

/-- Index of a character in the standard base64 alphabet. -/
def base64Index (c : Char) : Option Nat :=
  if 'A' ≤ c ∧ c ≤ 'Z' then some (c.toNat - 65)
  else if 'a' ≤ c ∧ c ≤ 'z' then some (c.toNat - 97 + 26)
  else if '0' ≤ c ∧ c ≤ '9' then some (c.toNat - 48 + 52)
  else if c = '+' then some 62
  else if c = '/' then some 63
  else none

/-- Decodes standard base64 four-character quanta, with `=` padding legal
only in the final quantum (Go `base64.StdEncoding.DecodeString` semantics;
embedded newlines, which Go would skip, are not modelled). -/
def b64Chunks : List Char → Option (List Nat)
  | [] => some []
  | c1 :: c2 :: c3 :: c4 :: rest =>
      match base64Index c1, base64Index c2 with
      | some v1, some v2 =>
          if c3 = '=' then
            if c4 = '=' ∧ rest = [] then some [v1 * 4 + v2 / 16]
            else none
          else
            match base64Index c3 with
            | some v3 =>
                if c4 = '=' then
                  if rest = [] then some [v1 * 4 + v2 / 16, (v2 % 16) * 16 + v3 / 4]
                  else none
                else
                  match base64Index c4 with
                  | some v4 =>
                      (b64Chunks rest).map (fun tl =>
                        (v1 * 4 + v2 / 16) :: ((v2 % 16) * 16 + v3 / 4) ::
                          ((v3 % 4) * 64 + v4) :: tl)
                  | none => none
            | none => none
      | _, _ => none
  | _ => none

/-- Go `base64.StdEncoding.DecodeString` followed by the `string(decoded)`
conversion (credentials are treated codepoint-wise; for ASCII data this
coincides with Go's byte strings). -/
def base64Decode (s : String) : Option String :=
  (b64Chunks s.data).map (fun bytes => String.mk (bytes.map Char.ofNat))

/-- Go struct `AuthConfig`: nil-able validators and the API-key header
name (`NewAuthConfig` defaults it to `X-API-Key`). -/
structure AuthConfig where
  BasicValidator : Option (String → String → Bool)
  BearerValidator : Option (String → Bool)
  APIKeyValidator : Option (String → Bool)
  APIKeyName : String

/-- Go `middlewares.BasicAuth`. -/
def BasicAuth (validator : String → String → Bool) : Middleware :=
  fun next c =>
    let auth := Ctx.Get c "Authorization"
    if auth = "" then
      Ctx.Unauthorized (Ctx.Set c "WWW-Authenticate" "Basic realm=\"Restricted\"")
        "missing authorization header"
    else if ¬ strStarts auth "Basic " then
      Ctx.Unauthorized c "invalid authorization type"
    else
      match base64Decode (strDrop auth 6) with
      | none => Ctx.Unauthorized c "invalid base64 encoding"
      | some decoded =>
          match splitNc decoded ':' 2 with
          | [username, password] =>
              if ¬ validator username password then
                Ctx.Unauthorized c "invalid credentials"
              else
                next (Ctx.SetAuth c (some
                  { type := "basic", value := "", username := username
                    password := password, valid := true }))
          | _ => Ctx.Unauthorized c "invalid credentials format"

/-- Go `middlewares.BearerAuth`. -/
def BearerAuth (validator : String → Bool) : Middleware :=
  fun next c =>
    let auth := Ctx.Get c "Authorization"
    if auth = "" then
      Ctx.Unauthorized c "missing authorization header"
    else if ¬ strStarts auth "Bearer " then
      Ctx.Unauthorized c "invalid authorization type"
    else
      let token := strDrop auth 7
      if ¬ validator token then
        Ctx.Unauthorized c "invalid token"
      else
        next (Ctx.SetAuth c (some
          { type := "bearer", value := token, username := "", password := "", valid := true }))

/-- Go `middlewares.APIKeyAuth` (the empty header name defaults to
`X-API-Key` before the closure is built). -/
def APIKeyAuth (validator : String → Bool) (headerName : String) : Middleware :=
  let hn := if headerName = "" then "X-API-Key" else headerName
  fun next c =>
    let key := Ctx.Get c hn
    if key = "" then
      Ctx.Unauthorized c "missing API key"
    else if ¬ validator key then
      Ctx.Unauthorized c "invalid API key"
    else
      next (Ctx.SetAuth c (some
        { type := "apikey", value := key, username := "", password := "", valid := true }))

/-- The part of the combined `Auth` middleware after the API-key branch
has not fired: the `auth == ""` check, then the Bearer branch, then the
Basic branch, then the final 401 (Go `middlewares.Auth`, second half). -/
def AuthNoKey (config : AuthConfig) (next : Handler) (c : Ctx) (auth : String) :
    Ctx × Option Err :=
  if auth = "" then
    Ctx.Unauthorized (Ctx.Set c "WWW-Authenticate" "Basic realm=\"Restricted\"")
      "missing authorization"
  else
    match config.BearerValidator, strStarts auth "Bearer " with
    | some vb, true =>
        let token := strDrop auth 7
        if vb token then
          next (Ctx.SetAuth c (some
            { type := "bearer", value := token, username := "", password := "", valid := true }))
        else Ctx.Unauthorized c "invalid token"
    | _, _ =>
        match config.BasicValidator, strStarts auth "Basic " with
        | some vba, true =>
            match base64Decode (strDrop auth 6) with
            | none => Ctx.Unauthorized c "invalid base64 encoding"
            | some decoded =>
                match splitNc decoded ':' 2 with
                | [username, password] =>
                    if vba username password then
                      next (Ctx.SetAuth c (some
                        { type := "basic", value := "", username := username
                          password := password, valid := true }))
                    else Ctx.Unauthorized c "invalid credentials"
                | _ => Ctx.Unauthorized c "invalid credentials format"
        | _, _ => Ctx.Unauthorized c "invalid authorization"

/-- Go `middlewares.Auth`: the combined middleware.  The API-key branch is
taken iff the key header value is non-empty and a key validator is
configured (`apiKey != "" && config.APIKeyValidator != nil`); otherwise
control falls through to `AuthNoKey`. -/
def Auth (config : AuthConfig) : Middleware :=
  fun next c =>
    let auth := Ctx.Get c "Authorization"
    let apiKey := Ctx.Get c config.APIKeyName
    match config.APIKeyValidator, apiKey == "" with
    | some vk, false =>
        if vk apiKey then
          next (Ctx.SetAuth c (some
            { type := "apikey", value := apiKey, username := "", password := "", valid := true }))
        else Ctx.Unauthorized c "invalid API key"
    | _, _ => AuthNoKey config next c auth

/-! ## Dispatcher (`app.go`: `buildChain`, `recordMetrics`, `handleRequest`) -/

/-- The handler fold of Go `(*App).buildChain` (first loop): each handler
runs and passes control to the next only when it returns a nil error; the
last handler's result is the terminal's result. -/
def buildTerminal : List Handler → Handler
  | [] => fun c => (c, none)
  | [h] => h
  | h :: rest => fun c =>
      match h c with
      | (c1, some e) => (c1, some e)
      | (c1, none) => buildTerminal rest c1

/-- Go `(*App).buildChain`: empty handler lists yield a nil-returning
handler; otherwise `append(a.middleware, routeMiddleware...)` is folded
right-to-left around the terminal, making the first middleware outermost. -/
def buildChain (global : List Middleware) (handlers : List Handler)
    (routeMw : List Middleware) : Handler :=
  if handlers.isEmpty then fun c => (c, none)
  else (global ++ routeMw).foldr (fun mw acc => mw acc) (buildTerminal handlers)

/-- Go `(*App).recordMetrics`: a nil metrics collector is a no-op;
otherwise the request counter and latency always update and the error
counter only for a non-empty error type.  The outer `Option` is the
panic of `ObserveLatency` (nothing in the repository recovers it), the
inner one the nil-able collector. -/
def recordMetrics (m : Option MetricsState) (method path : String) (status : Int)
    (durMs : Int) (errorType : String) : Option (Option MetricsState) :=
  match m with
  | none => some none
  | some ms =>
      let ms1 := IncRequestTotal ms method path status
      match ObserveLatency ms1 method path durMs with
      | none => none
      | some ms2 =>
          some (some (if errorType = "" then ms2 else IncError ms2 method path errorType))

/-- The fields of Go struct `App` that `handleRequest` reads: the global
middleware, the router's route slice and the (nil-able) metrics. -/
structure App where
  middleware : List Middleware
  routes : List Route
  metrics : Option MetricsState

/-- Binding of the extracted path parameters into the context
(`for k, v := range params { c.Params[k] = v }`). -/
def bindParams (c : Ctx) (params : List (String × String)) : Ctx :=
  { c with Params := params.foldl (fun acc kv => alInsert acc kv.fst kv.snd) c.Params }

/-- fasthttp `ResponseHeader.StatusCode()`: the getter substitutes
`StatusOK` (200) for the zero value of the stored code — it never returns
0, which is also why an untouched response is serialised as `200 OK`. -/
def statusCodeOf (r : Response) : Int :=
  if r.status = 0 then 200 else r.status

/-- Status code of the attached response
(`c.RequestCtx.Response.StatusCode()`); a detached handle would be a nil
dereference in Go and is unreachable during dispatch, modelled as the
getter's default. -/
def respStatus (c : Ctx) : Int :=
  match c.RequestCtx with
  | some f => statusCodeOf f.response
  | none => 200

/-- Everything observable when `handleRequest` returns: the metrics, the
transport-visible request/response, the context object as returned to the
pool, and the dispatcher's final `status` value. -/
structure DispatchResult where
  metrics : Option MetricsState
  fctx : Option ReqCtx
  pooled : Ctx
  status : Int
deriving DecidableEq, Repr

/-- Go `(*App).handleRequest`, with the pooled object obtained from
`pool.Get`, the transport handle and the request duration (milliseconds)
as explicit inputs.  The deferred `releaseCtx` runs on every exit path;
`none` models the metrics panic escaping the handler, which kills the
request with no response delivered.  Note the two `st = 0` guards: they
translate the source's `status == 0` checks, which are dead code because
`StatusCode()` never returns 0. -/
def handleRequest (a : App) (pooled : Ctx) (fctx : ReqCtx) (durMs : Int) :
    Option DispatchResult :=
  let c := acquireCtx pooled fctx
  let method := fctx.request.method
  let path := fctx.request.path
  match find a.routes method path with
  | none =>
      let c1 := (Ctx.JSON (Ctx.Status c 404) 404 [("error", "not found")]).fst
      (recordMetrics a.metrics method path 404 durMs "not_found").map (fun m =>
        { metrics := m, fctx := c1.RequestCtx, pooled := releaseCtx c1, status := 404 })
  | some (route, params) =>
      let c1 := bindParams c params
      let chain := buildChain a.middleware route.Handlers route.middleware
      match chain c1 with
      | (c2, some _) =>
          let st := respStatus c2
          if st = 0 then
            let c3 := (Ctx.JSON (Ctx.Status c2 500) 500 [("error", "internal server error")]).fst
            (recordMetrics a.metrics method route.Path 500 durMs "handler_error").map (fun m =>
              { metrics := m, fctx := c3.RequestCtx, pooled := releaseCtx c3, status := 500 })
          else
            (recordMetrics a.metrics method route.Path st durMs "handler_error").map (fun m =>
              { metrics := m, fctx := c2.RequestCtx, pooled := releaseCtx c2, status := st })
      | (c2, none) =>
          let st := respStatus c2
          let st2 := if st = 0 then 200 else st
          (recordMetrics a.metrics method route.Path st2 durMs "").map (fun m =>
            { metrics := m, fctx := c2.RequestCtx, pooled := releaseCtx c2, status := st2 })

/-! ## Helper lemmas on the map model -/

theorem lookup_alInsert_self {α : Type} (l : List (String × α)) (k : String) (v : α) :
    (alInsert l k v).lookup k = some v := by
  induction l with
  | nil => simp [alInsert]
  | cons kv rest ih =>
      obtain ⟨k', v'⟩ := kv
      by_cases h : k' = k
      · subst h; simp [alInsert]
      · have hb : (k == k') = false := by simp [Ne.symm h]
        simp [alInsert, h, List.lookup, hb, ih]

theorem lookup_alInsert_ne {α : Type} (l : List (String × α)) (k k' : String) (v : α)
    (h : k' ≠ k) : (alInsert l k v).lookup k' = l.lookup k' := by
  induction l with
  | nil =>
      have hb : (k' == k) = false := by simp [h]
      simp [alInsert, List.lookup, hb]
  | cons kv rest ih =>
      obtain ⟨k₀, v₀⟩ := kv
      by_cases h0 : k₀ = k
      · subst h0
        have hb : (k' == k₀) = false := by simp [h]
        simp [alInsert, List.lookup, hb]
      · by_cases h1 : k' = k₀
        · subst h1; simp [alInsert, h0, List.lookup]
        · have hb : (k' == k₀) = false := by simp [h1]
          simp [alInsert, h0, List.lookup, hb, ih]

theorem lookup_mem_fst {α : Type} (l : List (String × α)) (k : String) (v : α)
    (h : l.lookup k = some v) : k ∈ l.map Prod.fst := by
  induction l with
  | nil => simp [List.lookup] at h
  | cons kv rest ih =>
      obtain ⟨k₀, v₀⟩ := kv
      by_cases h0 : k = k₀
      · subst h0; simp
      · have hb : (k == k₀) = false := by simp [h0]
        simp [List.lookup, hb] at h
        simp only [List.map_cons]
        exact List.mem_cons_of_mem _ (ih h)

theorem mem_fst_exists_lookup {α : Type} (l : List (String × α)) (k : String)
    (h : k ∈ l.map Prod.fst) : ∃ v, l.lookup k = some v := by
  induction l with
  | nil => simp at h
  | cons kv rest ih =>
      obtain ⟨k₀, v₀⟩ := kv
      by_cases h0 : k = k₀
      · subst h0; exact ⟨v₀, by simp [List.lookup]⟩
      · have hb : (k == k₀) = false := by simp [h0]
        simp only [List.map_cons, List.mem_cons] at h
        rcases h with h | h
        · exact absurd h h0
        · obtain ⟨v, hv⟩ := ih h
          exact ⟨v, by simp [List.lookup, hb, hv]⟩

theorem mem_insertSorted (a x : String) (l : List String) :
    a ∈ insertSorted x l ↔ a = x ∨ a ∈ l := by
  induction l with
  | nil => simp [insertSorted]
  | cons y ys ih =>
      by_cases h : x ≤ y
      · simp [insertSorted, h]
      · simp [insertSorted, h, ih]; tauto

theorem mem_sortStrings (a : String) (l : List String) :
    a ∈ sortStrings l ↔ a ∈ l := by
  induction l with
  | nil => simp [sortStrings]
  | cons x xs ih => simp [sortStrings, mem_insertSorted, ih]

/-! ## Test fixtures (concrete transports and handlers for witnesses) -/

/-- A response object as handed over by the transport: nothing set yet. -/
def emptyResp : Response :=
  { status := 0, contentType := "", headers := [], body := Body.empty }

/-- A concrete transport handle for a given request line. -/
def mkFctx (method path : String) (headers : List (String × String)) : ReqCtx :=
  { request := { method := method, path := path, headers := headers }
    response := emptyResp
    log := [] }

/-- Modelled from the spec: the observation middleware of the
middleware-ordering scenario, which appends its identifier to the shared
observation log before and after calling its inner handler. -/
def logMw (name : String) : Middleware :=
  fun next c =>
    let c1 := ctxLog c (name ++ ":before")
    let r := next c1
    (ctxLog r.fst (name ++ ":after"), r.snd)

/-- Modelled from the spec: the terminal handler of the ordering scenario,
which records its execution in the observation log. -/
def hLog : Handler := fun c => (ctxLog c "h", none)

/-- A handler that reports a failure without setting a response status. -/
def hBoom : Handler := fun c => (c, some "boom")

/-- A handler that completes without failure and without setting a status. -/
def hNoop : Handler := fun c => (c, none)

/-! ## C1 — context pool reuse and the auth result -/

/-- C1: the claim states that a context returned by `acquire` has empty
parameter and local maps and no auth result attached, for any number of
prior acquire/release cycles.  The parameter/locals half holds, but the
auth half fails on the code: `acquireCtx` clears `Params` and `Locals` and
`releaseCtx` detaches handle and logger, yet neither resets `c.Auth`, so
re-acquiring a pooled context still exposes the previous owner's resolved
auth result (plaintext password included).  This theorem evaluates the
pool operations at such a failing input. -/
theorem ctx_pool_auth_residue :
    (∀ (c : Ctx) (f : ReqCtx), (acquireCtx c f).Params = [] ∧ (acquireCtx c f).Locals = []) ∧
    (acquireCtx (releaseCtx (Ctx.SetAuth (acquireCtx newCtx (mkFctx "GET" "/a" []))
        (some ⟨"basic", "", "admin", "secret", true⟩))) (mkFctx "GET" "/b" [])).Auth =
      some ⟨"basic", "", "admin", "secret", true⟩ :=
  ⟨fun _ _ => ⟨rfl, rfl⟩, rfl⟩

/-! ## C3 — registration never fails -/

/-- C3 (counterexample): the claim states that `register` fails for every
malformed pattern, the empty pattern included.  In the code `add` has no
failure path at all: registering the empty pattern succeeds and appends a
route, refuting the claim at this concrete input. -/
theorem register_empty_pattern_appends :
    ∃ r, (add (newRouter "") "GET" "" []).routes = [r] ∧
      r.Method = "GET" ∧ r.Path = "" ∧ r.Handlers = [] :=
  ⟨_, rfl, rfl, rfl, rfl⟩

/-- C3 (amended): `register(method, pattern, handlers, middleware)` always
appends a Route built from the group prefix and pattern and never fails;
no validation of the pattern is performed, so malformed (for example
empty) patterns are accepted as-is. -/
theorem register_always_appends (r : RouterState) (method path : String)
    (hs : List Handler) :
    (add r method path hs).routes =
      r.routes ++ [{ Method := method, Path := r.pre ++ path, Handlers := hs
                     middleware := r.middleware }] ∧
    (add r method path hs).routes.length = r.routes.length + 1 :=
  ⟨rfl, by simp [add]⟩

/-! ## C6 — registration-order precedence in route lookup -/

/-- C6: the route table scan returns the first matching route in
registration order: if no route registered before `r1` matches the
request, and `r1` matches, then `find` selects `r1` (and its extracted
parameters), regardless of any later route `r2` matching the same method
and path. -/
theorem find_first_match (pre : List Route) (r1 : Route) (rest : List Route)
    (method path : String) (params : List (String × String))
    (hpre : ∀ r ∈ pre, r.Method = method → matchPath r.Path path = none)
    (h1 : r1.Method = method)
    (hm : matchPath r1.Path path = some params) :
    find (pre ++ r1 :: rest) method path = some (r1, params) := by
  induction pre with
  | nil => simp [find, h1, hm]
  | cons r rs ih =>
      by_cases hr : r.Method = method
      · have hnone := hpre r (by simp) hr
        simp only [List.cons_append, find, hr]
        simp [hnone, ih (fun r' hr' => hpre r' (by simp [hr']))]
      · simp only [List.cons_append, find]
        simp [hr, ih (fun r' hr' => hpre r' (by simp [hr']))]

/-- A first route registered for `GET /dup`. -/
def routeDup1 : Route :=
  { Method := "GET", Path := "/dup", Handlers := [hNoop], middleware := [] }

/-- A second route registered later for the same `GET /dup`. -/
def routeDup2 : Route :=
  { Method := "GET", Path := "/dup", Handlers := [hBoom], middleware := [] }

/-- C6 (witness): with two routes registered for the same method and
pattern, `find` selects the one registered first. -/
theorem find_first_match_witness :
    find [routeDup1, routeDup2] "GET" "/dup" = some (routeDup1, []) :=
  find_first_match [] routeDup1 [routeDup2] "GET" "/dup" []
    (fun r hr => by simp at hr) rfl (by decide)

/-! ## C8 — middleware chain composition and ordering -/

/-- C8: the composed chain wraps the terminal handler with global
middleware outside route-local middleware, earlier-registered middleware
outer within each tier; in the spec's observation scenario with global
middleware A, B and route middleware C the log reads A, B, C before and
C, B, A after; and the handler fold runs handlers left to right, passing
control onward only on a nil error, with the last handler deciding the
result. -/
theorem middleware_chain_order :
    (((buildChain [logMw "A", logMw "B"] [hLog] [logMw "C"]
          (acquireCtx newCtx (mkFctx "GET" "/obs" []))).fst.RequestCtx.map ReqCtx.log) =
        some ["A:before", "B:before", "C:before", "h", "C:after", "B:after", "A:after"]) ∧
    (∀ h : Handler, buildTerminal [h] = h) ∧
    (∀ (h : Handler) (rest : List Handler) (c c1 : Ctx) (e : Err),
        h c = (c1, some e) → buildTerminal (h :: rest) c = (c1, some e)) ∧
    (∀ (h : Handler) (rest : List Handler) (c c1 : Ctx),
        h c = (c1, none) → buildTerminal (h :: rest) c = buildTerminal rest c1) ∧
    (∀ (g r : List Middleware) (hs : List Handler), hs ≠ [] →
        buildChain g hs r = g.foldr (fun mw acc => mw acc) (buildChain [] hs r)) := by
  refine ⟨by decide, fun h => rfl, ?_, ?_, ?_⟩
  · intro h rest c c1 e hc
    cases rest with
    | nil => simpa [buildTerminal] using hc
    | cons h2 t => simp [buildTerminal, hc]
  · intro h rest c c1 hc
    cases rest with
    | nil => simp [buildTerminal, hc]
    | cons h2 t => simp [buildTerminal, hc]
  · intro g r hs hne
    have hemp : hs.isEmpty = false := by
      cases hs with
      | nil => exact absurd rfl hne
      | cons a t => rfl
    simp [buildChain, hemp, List.foldr_append]

/-- C8 (witness): instantiating the composition laws at a concrete chain. -/
theorem middleware_chain_order_witness :
    buildChain [logMw "A"] [hLog] [] =
      [logMw "A"].foldr (fun mw acc => mw acc) (buildChain [] [hLog] []) :=
  middleware_chain_order.2.2.2.2 [logMw "A"] [] [hLog] (by simp)

/-! ## C2, C9 — dispatcher exit paths and metrics -/

/-- Error-counter value for a composite key in a (nil-able) metrics state. -/
def errCount (m : Option MetricsState) (k : String) : Int :=
  match m with
  | none => 0
  | some ms => (ms.errorTotal.lookup k).getD 0

/-- Request-counter value for a composite key in a (nil-able) metrics state. -/
def reqCount (m : Option MetricsState) (k : String) : Int :=
  match m with
  | none => 0
  | some ms => (ms.requestTotal.lookup k).getD 0

theorem bump_self (l : List (String × Int)) (k : String) :
    ((bump l k).lookup k).getD 0 = (l.lookup k).getD 0 + 1 := by
  simp [bump, lookup_alInsert_self]

theorem bump_other (l : List (String × Int)) (k k' : String) (h : k' ≠ k) :
    (bump l k).lookup k' = l.lookup k' := by
  simp [bump, lookup_alInsert_ne _ _ _ _ h]

/-- Appending a fresh binding for a different key does not change a lookup
(`LoadOrStore` of a new key leaves other keys alone). -/
theorem lookup_append_single {α : Type} (l : List (String × α)) (k k' : String) (v : α)
    (h : k' ≠ k) : (l ++ [(k, v)]).lookup k' = l.lookup k' := by
  induction l with
  | nil =>
      have hb : (k' == k) = false := by simp [h]
      simp [List.lookup, hb]
  | cons kv rest ih =>
      obtain ⟨k0, v0⟩ := kv
      by_cases h0 : k' = k0
      · subst h0; simp [List.lookup]
      · have hb : (k' == k0) = false := by simp [h0]
        simp [List.lookup, hb, ih]

theorem append_bucket_ne (s : String) : s ++ "_bucket" ≠ s := by
  intro h
  have hlen := congrArg (fun t : String => t.data.length) h
  have h7 : ("_bucket" : String).data.length = 7 := rfl
  simp only [String.data_append, List.length_append, h7] at hlen
  omega

/-- When neither latency-map collision occurs — the plain key holds no
bucket and the suffixed key holds no mutex — `ObserveLatency` does not
panic, and it only rewrites the `requestLatency` field. -/
theorem observeLatency_success (m : MetricsState) (method path : String) (durMs : Int)
    (hmu : ∀ bu, m.requestLatency.lookup (method ++ "_" ++ path) ≠
        some (LatEntry.bucket bu))
    (hbk : m.requestLatency.lookup (method ++ "_" ++ path ++ "_bucket") ≠
        some LatEntry.mutex) :
    ∃ l, ObserveLatency m method path durMs = some { m with requestLatency := l } := by
  rcases hl : m.requestLatency.lookup (method ++ "_" ++ path) with _ | e
  · have hne : method ++ "_" ++ path ++ "_bucket" ≠ method ++ "_" ++ path :=
      append_bucket_ne (method ++ "_" ++ path)
    have hstep := lookup_append_single m.requestLatency (method ++ "_" ++ path)
      (method ++ "_" ++ path ++ "_bucket") LatEntry.mutex hne
    rcases hb : m.requestLatency.lookup (method ++ "_" ++ path ++ "_bucket") with _ | e2
    · exact ⟨(m.requestLatency ++ [(method ++ "_" ++ path, LatEntry.mutex)]) ++
          [(method ++ "_" ++ path ++ "_bucket", LatEntry.bucket { sum := durMs, count := 1 })],
        by simp only [ObserveLatency, hl, observeInBucket, hstep, hb, Option.map]⟩
    · cases e2 with
      | mutex => exact absurd hb hbk
      | bucket b =>
          exact ⟨alInsert (m.requestLatency ++ [(method ++ "_" ++ path, LatEntry.mutex)])
              (method ++ "_" ++ path ++ "_bucket")
              (LatEntry.bucket { sum := b.sum + durMs, count := b.count + 1 }),
            by simp only [ObserveLatency, hl, observeInBucket, hstep, hb, Option.map]⟩
  · cases e with
    | bucket b => exact absurd hl (hmu b)
    | mutex =>
        rcases hb : m.requestLatency.lookup (method ++ "_" ++ path ++ "_bucket") with _ | e2
        · exact ⟨m.requestLatency ++
              [(method ++ "_" ++ path ++ "_bucket", LatEntry.bucket { sum := durMs, count := 1 })],
            by simp only [ObserveLatency, hl, observeInBucket, hb, Option.map]⟩
        · cases e2 with
          | mutex => exact absurd hb hbk
          | bucket b =>
              exact ⟨alInsert m.requestLatency (method ++ "_" ++ path ++ "_bucket")
                  (LatEntry.bucket { sum := b.sum + durMs, count := b.count + 1 }),
                by simp only [ObserveLatency, hl, observeInBucket, hb, Option.map]⟩

/-- An initial, empty metrics state (`metrics.New()`). -/
def emptyMetrics : MetricsState :=
  { requestTotal := [], errorTotal := [], requestLatency := [], logCount := [], activeConns := 0 }

/-- An app with no routes and metrics enabled. -/
def appNope : App := { middleware := [], routes := [], metrics := some emptyMetrics }

/-- The transport handle of the spec's `GET /nope` scenario. -/
def fctxNope : ReqCtx := mkFctx "GET" "/nope" []

/-- A metrics state as left behind by one observed `GET /x` request: a
mutex under `GET_/x` and a bucket under `GET_/x_bucket`. -/
def msCollide : MetricsState :=
  { requestTotal := [("GET_/x_200", 1)]
    errorTotal := []
    requestLatency := [("GET_/x", LatEntry.mutex), ("GET_/x_bucket", LatEntry.bucket ⟨7, 1⟩)]
    logCount := []
    activeConns := 0 }

/-- An app with no routes whose metrics already hold `msCollide`. -/
def appCollide : App := { middleware := [], routes := [], metrics := some msCollide }

/-- The colliding unmatched request: `GET /x_bucket`. -/
def fctxCollide : ReqCtx := mkFctx "GET" "/x_bucket" []

/-- C9 (counterexample): the claim promises a 404 and a `not_found`
counter increment for every unmatched request, but after `GET /x` has been
observed, the unmatched request `GET /x_bucket` makes `ObserveLatency`
load the existing bucket under its own latency key `GET_/x_bucket` and
panic on the `val.(*sync.Mutex)` type assertion, so the dispatch dies with
no response and no counter increment. -/
theorem dispatch_not_found_panics :
    handleRequest appCollide newCtx fctxCollide 5 = none := by decide

/-- C9 (amended): for a request whose method and path match no registered
route, provided its latency key `method_path` holds no bucket and
`method_path_bucket` holds no mutex in the latency map (in particular
whenever no observed path ends in `_bucket`), the dispatcher answers 404
with the generic not-found body, the error counter keyed
`method_path_not_found` grows by exactly one while all other error
counters are unchanged, the request counter for `(method, path, 404)`
grows by one, and the context is released; on a colliding key the latency
observation panics instead and no response is produced. -/
theorem dispatch_not_found_no_collision (a : App) (ms : MetricsState) (pooled : Ctx)
    (fctx : ReqCtx) (durMs : Int)
    (hm : a.metrics = some ms)
    (hfind : find a.routes fctx.request.method fctx.request.path = none)
    (hmu : ∀ bu, ms.requestLatency.lookup
        (fctx.request.method ++ "_" ++ fctx.request.path) ≠ some (LatEntry.bucket bu))
    (hbk : ms.requestLatency.lookup
        (fctx.request.method ++ "_" ++ fctx.request.path ++ "_bucket") ≠
        some LatEntry.mutex) :
    ∃ r, handleRequest a pooled fctx durMs = some r ∧
      r.status = 404 ∧
      (∃ f3, r.fctx = some f3 ∧ f3.response.status = 404 ∧
          f3.response.body = Body.jsonObj [("error", "not found")]) ∧
      errCount r.metrics
          (fctx.request.method ++ "_" ++ fctx.request.path ++ "_" ++ "not_found") =
        errCount a.metrics
          (fctx.request.method ++ "_" ++ fctx.request.path ++ "_" ++ "not_found") + 1 ∧
      (∀ k, k ≠ fctx.request.method ++ "_" ++ fctx.request.path ++ "_" ++ "not_found" →
          errCount r.metrics k = errCount a.metrics k) ∧
      reqCount r.metrics
          (fctx.request.method ++ "_" ++ fctx.request.path ++ "_" ++ intRepr 404) =
        reqCount a.metrics
          (fctx.request.method ++ "_" ++ fctx.request.path ++ "_" ++ intRepr 404) + 1 ∧
      r.pooled.RequestCtx = none := by
  obtain ⟨l, hobs⟩ := observeLatency_success
    (IncRequestTotal ms fctx.request.method fctx.request.path 404)
    fctx.request.method fctx.request.path durMs hmu hbk
  have hrec : recordMetrics a.metrics fctx.request.method fctx.request.path 404 durMs
      "not_found" = some (some (IncError
        { IncRequestTotal ms fctx.request.method fctx.request.path 404 with
            requestLatency := l }
        fctx.request.method fctx.request.path "not_found")) := by
    simp only [recordMetrics, hm, hobs]
    simp
  have hr : handleRequest a pooled fctx durMs = some
      { metrics := some (IncError
            { IncRequestTotal ms fctx.request.method fctx.request.path 404 with
                requestLatency := l }
            fctx.request.method fctx.request.path "not_found")
        fctx := ((Ctx.JSON (Ctx.Status (acquireCtx pooled fctx) 404) 404
            [("error", "not found")]).fst).RequestCtx
        pooled := releaseCtx ((Ctx.JSON (Ctx.Status (acquireCtx pooled fctx) 404) 404
            [("error", "not found")]).fst)
        status := 404 } := by
    simp only [handleRequest, hfind, hrec, Option.map]
  refine ⟨_, hr, rfl, ⟨_, rfl, rfl, rfl⟩, ?_, ?_, ?_, rfl⟩
  · simp [errCount, hm, IncError, IncRequestTotal, bump_self]
  · intro k hk
    simp [errCount, hm, IncError, IncRequestTotal, bump_other _ _ _ hk]
  · simp [reqCount, hm, IncError, IncRequestTotal, bump_self]

/-- C9 (witness): the unregistered `GET /nope` request against empty
metrics yields 404 with the promised counter increments. -/
theorem dispatch_not_found_no_collision_witness :
    ∃ r, handleRequest appNope newCtx fctxNope 5 = some r ∧
      r.status = 404 ∧
      (∃ f3, r.fctx = some f3 ∧ f3.response.status = 404 ∧
          f3.response.body = Body.jsonObj [("error", "not found")]) ∧
      errCount r.metrics
          (fctxNope.request.method ++ "_" ++ fctxNope.request.path ++ "_" ++ "not_found") =
        errCount appNope.metrics
          (fctxNope.request.method ++ "_" ++ fctxNope.request.path ++ "_" ++ "not_found") + 1 ∧
      (∀ k, k ≠ fctxNope.request.method ++ "_" ++ fctxNope.request.path ++ "_" ++ "not_found" →
          errCount r.metrics k = errCount appNope.metrics k) ∧
      reqCount r.metrics
          (fctxNope.request.method ++ "_" ++ fctxNope.request.path ++ "_" ++ intRepr 404) =
        reqCount appNope.metrics
          (fctxNope.request.method ++ "_" ++ fctxNope.request.path ++ "_" ++ intRepr 404) + 1 ∧
      r.pooled.RequestCtx = none :=
  dispatch_not_found_no_collision appNope emptyMetrics newCtx fctxNope 5 rfl rfl
    (fun bu => by simp [List.lookup]) (by simp [List.lookup])

/-- The spec's failing-route scenario: one route whose handler reports a
failure without setting a status. -/
def routeBoom : Route :=
  { Method := "GET", Path := "/boom", Handlers := [hBoom], middleware := [] }

/-- App registering only `routeBoom`, with metrics enabled. -/
def appBoom : App := { middleware := [], routes := [routeBoom], metrics := some emptyMetrics }

/-- The transport handle of the failing-route scenario. -/
def fctxBoom : ReqCtx := mkFctx "GET" "/boom" []

/-- A route whose handler completes without failure and without setting a
status. -/
def routeOk : Route :=
  { Method := "GET", Path := "/ok", Handlers := [hNoop], middleware := [] }

/-- App registering only `routeOk`, with metrics enabled. -/
def appOk : App := { middleware := [], routes := [routeOk], metrics := some emptyMetrics }

/-- The transport handle of the clean-route scenario. -/
def fctxOk : ReqCtx := mkFctx "GET" "/ok" []

/-- C2: the claim says a chain failure with no explicit status yields a
500 with a generic error body.  The source's `status == 0` guards are dead
code: `fasthttp.Response.StatusCode()` substitutes 200 for an unset code
and never returns 0, so the dispatcher leaves the response untouched — a
failing handler that sets no status produces a 200 response with no error
body, the `handler_error` counter still growing by exactly one and the
request counter recorded under status 200, never 500.  The no-failure half
of the claim (default 200, empty error kind) does hold, via the getter
rather than the dead guard.  Both scenarios are evaluated concretely. -/
theorem dispatch_failure_not_defaulted_500 :
    (∃ r, handleRequest appBoom newCtx fctxBoom 5 = some r ∧
      r.status = 200 ∧ r.fctx = some fctxBoom ∧
      errCount r.metrics "GET_/boom_handler_error" = 1 ∧
      reqCount r.metrics "GET_/boom_200" = 1 ∧
      reqCount r.metrics "GET_/boom_500" = 0) ∧
    (∃ r, handleRequest appOk newCtx fctxOk 5 = some r ∧
      r.status = 200 ∧ r.fctx = some fctxOk ∧
      errCount r.metrics "GET_/ok_handler_error" = 0 ∧
      reqCount r.metrics "GET_/ok_200" = 1) :=
  ⟨⟨_, rfl, by decide⟩, ⟨_, rfl, by decide⟩⟩

/-! ## C7 — path matching semantics -/

/-- Modelled from the spec's words, for comparison with `matchPath`: the
value a parameter name receives from a sequence of (pattern segment, path
segment) pairs — a `:name` segment binds `name` to the corresponding path
segment, and a later pair for the same name takes precedence (Go map
assignment). -/
def specBind : List (String × String) → String → Option String
  | [], _ => none
  | (p, q) :: rest, name =>
      match specBind rest name with
      | some v => some v
      | none => if strStarts p ":" = true ∧ strDrop p 1 = name then some q else none

theorem matchSegs_isSome (ps : List String) (qs : List String)
    (acc : List (String × String)) :
    (matchSegs ps qs acc).isSome = true ↔
      (ps.length = qs.length ∧
        ∀ pq ∈ ps.zip qs, strStarts pq.1 ":" = true ∨ pq.1 = pq.2) := by
  induction ps generalizing qs acc with
  | nil => cases qs <;> simp [matchSegs]
  | cons p ps ih =>
      cases qs with
      | nil => simp [matchSegs]
      | cons q qs =>
          by_cases hp : strStarts p ":" = true
          · simp [matchSegs, hp, ih]
          · by_cases hq : p = q
            · subst hq; simp [matchSegs, hp, ih]
            · simp [matchSegs, hp, hq]

theorem specBind_zip_cons (p q : String) (ps qs : List String) (name : String) :
    specBind ((p :: ps).zip (q :: qs)) name =
      match specBind (ps.zip qs) name with
      | some v => some v
      | none => if strStarts p ":" = true ∧ strDrop p 1 = name then some q else none := rfl

theorem matchSegs_lookup (ps : List String) (qs : List String)
    (acc res : List (String × String))
    (h : matchSegs ps qs acc = some res) (name : String) :
    res.lookup name =
      match specBind (ps.zip qs) name with
      | some v => some v
      | none => acc.lookup name := by
  induction ps generalizing qs acc with
  | nil =>
      cases qs with
      | nil =>
          simp [matchSegs] at h
          subst h
          simp [specBind]
      | cons q qs => simp [matchSegs] at h
  | cons p ps ih =>
      cases qs with
      | nil => simp [matchSegs] at h
      | cons q qs =>
          by_cases hp : strStarts p ":" = true
          · rw [matchSegs, if_pos hp] at h
            have hih := ih qs (alInsert acc (strDrop p 1) q) h
            rw [hih, specBind_zip_cons]
            cases hsb : specBind (ps.zip qs) name with
            | some v => rfl
            | none =>
                by_cases hn : strDrop p 1 = name
                · subst hn
                  simp [hp, lookup_alInsert_self]
                · rw [lookup_alInsert_ne _ _ _ _ (Ne.symm hn)]
                  simp [hp, hn]
          · by_cases hq : p = q
            · rw [matchSegs, if_neg hp, if_pos hq] at h
              have hih := ih qs acc h
              rw [hih, specBind_zip_cons]
              cases hsb : specBind (ps.zip qs) name with
              | some v => rfl
              | none => simp [hp]
            · rw [matchSegs, if_neg hp, if_neg hq] at h
              exact absurd h (by simp)

/-- C7: matching splits pattern and path on `/` and succeeds exactly when
the segment counts agree and every pattern segment either is a `:name`
parameter (binding unconditionally) or equals the path segment exactly;
on success the parameter map binds exactly the named segments to their
corresponding path segments; in particular `/users/:id` matches
`/users/42` with id = "42" and does not match `/users/42/extra`. -/
theorem matchPath_correct :
    (∀ pattern path, (matchPath pattern path).isSome = true ↔
        ((splitc '/' pattern).length = (splitc '/' path).length ∧
          ∀ pq ∈ (splitc '/' pattern).zip (splitc '/' path),
            strStarts pq.1 ":" = true ∨ pq.1 = pq.2)) ∧
    (∀ pattern path ps name, matchPath pattern path = some ps →
        ps.lookup name = specBind ((splitc '/' pattern).zip (splitc '/' path)) name) ∧
    matchPath "/users/:id" "/users/42" = some [("id", "42")] ∧
    matchPath "/users/:id" "/users/42/extra" = none := by
  refine ⟨?_, ?_, by decide, by decide⟩
  · intro pattern path
    by_cases hl : (splitc '/' pattern).length = (splitc '/' path).length
    · simp [matchPath, hl, matchSegs_isSome]
    · simp [matchPath, hl]
  · intro pattern path ps name h
    by_cases hl : (splitc '/' pattern).length = (splitc '/' path).length
    · simp only [matchPath, hl] at h
      simp at h
      have hlk := matchSegs_lookup _ _ _ _ h name
      cases hsb : specBind ((splitc '/' pattern).zip (splitc '/' path)) name with
      | some v => rw [hlk, hsb]
      | none => rw [hlk, hsb]; simp [List.lookup]
    · simp [matchPath, hl] at h

/-- C7 (witness): the extracted binding of `/users/:id` against
`/users/42` agrees with the spec-side binding function. -/
theorem matchPath_correct_witness :
    ([("id", "42")] : List (String × String)).lookup "id" =
      specBind ((splitc '/' "/users/:id").zip (splitc '/' "/users/42")) "id" :=
  matchPath_correct.2.1 "/users/:id" "/users/42" [("id", "42")] "id" (by decide)

/-! ## C4 — combined auth middleware: branch priority -/

theorem Auth_api_branch (config : AuthConfig) (next : Handler) (c : Ctx)
    (vk : String → Bool) (hv : config.APIKeyValidator = some vk)
    (hk : Ctx.Get c config.APIKeyName ≠ "") :
    Auth config next c =
      if vk (Ctx.Get c config.APIKeyName) then
        next (Ctx.SetAuth c (some
          { type := "apikey", value := Ctx.Get c config.APIKeyName, username := ""
            password := "", valid := true }))
      else Ctx.Unauthorized c "invalid API key" := by
  have hb : (Ctx.Get c config.APIKeyName == "") = false := by simp [hk]
  simp [Auth, hv, hb]

theorem Auth_no_api (config : AuthConfig) (next : Handler) (c : Ctx)
    (h : Ctx.Get c config.APIKeyName = "" ∨ config.APIKeyValidator = none) :
    Auth config next c = AuthNoKey config next c (Ctx.Get c "Authorization") := by
  rcases h with h | h
  · have hb : (Ctx.Get c config.APIKeyName == "") = true := by simp [h]
    cases hv : config.APIKeyValidator with
    | none => simp [Auth, hv, hb]
    | some vk => simp [Auth, hv, hb]
  · cases hkb : (Ctx.Get c config.APIKeyName == "") with
    | true => simp [Auth, h, hkb]
    | false => simp [Auth, h, hkb]

theorem AuthNoKey_bearer (config : AuthConfig) (next : Handler) (c : Ctx) (auth : String)
    (vb : String → Bool) (hne : auth ≠ "") (hv : config.BearerValidator = some vb)
    (hpre : strStarts auth "Bearer " = true) :
    AuthNoKey config next c auth =
      if vb (strDrop auth 7) then
        next (Ctx.SetAuth c (some
          { type := "bearer", value := strDrop auth 7, username := "", password := ""
            valid := true }))
      else Ctx.Unauthorized c "invalid token" := by
  simp [AuthNoKey, hne, hv, hpre]

theorem AuthNoKey_basic (config : AuthConfig) (next : Handler) (c : Ctx) (auth : String)
    (vba : String → String → Bool) (hne : auth ≠ "")
    (hb : strStarts auth "Bearer " = false ∨ config.BearerValidator = none)
    (hv : config.BasicValidator = some vba)
    (hpre : strStarts auth "Basic " = true) :
    AuthNoKey config next c auth =
      match base64Decode (strDrop auth 6) with
      | none => Ctx.Unauthorized c "invalid base64 encoding"
      | some decoded =>
          match splitNc decoded ':' 2 with
          | [username, password] =>
              if vba username password then
                next (Ctx.SetAuth c (some
                  { type := "basic", value := "", username := username
                    password := password, valid := true }))
              else Ctx.Unauthorized c "invalid credentials"
          | _ => Ctx.Unauthorized c "invalid credentials format" := by
  rcases hb with hb | hb
  · cases hbv : config.BearerValidator with
    | none => simp [AuthNoKey, hne, hb, hbv, hv, hpre]
    | some vb => simp [AuthNoKey, hne, hb, hbv, hv, hpre]
  · cases hbs : strStarts auth "Bearer " with
    | true => simp [AuthNoKey, hne, hb, hbs, hv, hpre]
    | false => simp [AuthNoKey, hne, hb, hbs, hv, hpre]

theorem AuthNoKey_reject (config : AuthConfig) (next : Handler) (c : Ctx) (auth : String)
    (hne : auth ≠ "")
    (hb : strStarts auth "Bearer " = false ∨ config.BearerValidator = none)
    (hbc : strStarts auth "Basic " = false ∨ config.BasicValidator = none) :
    AuthNoKey config next c auth = Ctx.Unauthorized c "invalid authorization" := by
  rcases hb with hb | hb <;> rcases hbc with hbc | hbc
  · cases hbv : config.BearerValidator with
    | none =>
        cases hbav : config.BasicValidator with
        | none => simp [AuthNoKey, hne, hb, hbv, hbc, hbav]
        | some v => simp [AuthNoKey, hne, hb, hbv, hbc, hbav]
    | some v =>
        cases hbav : config.BasicValidator with
        | none => simp [AuthNoKey, hne, hb, hbv, hbc, hbav]
        | some v2 => simp [AuthNoKey, hne, hb, hbv, hbc, hbav]
  · cases hbv : config.BearerValidator with
    | none =>
        cases hbs2 : strStarts auth "Basic " with
        | true => simp [AuthNoKey, hne, hb, hbv, hbc, hbs2]
        | false => simp [AuthNoKey, hne, hb, hbv, hbc, hbs2]
    | some v =>
        cases hbs2 : strStarts auth "Basic " with
        | true => simp [AuthNoKey, hne, hb, hbv, hbc, hbs2]
        | false => simp [AuthNoKey, hne, hb, hbv, hbc, hbs2]
  · cases hbs : strStarts auth "Bearer " with
    | true =>
        cases hbav : config.BasicValidator with
        | none => simp [AuthNoKey, hne, hb, hbs, hbc, hbav]
        | some v => simp [AuthNoKey, hne, hb, hbs, hbc, hbav]
    | false =>
        cases hbav : config.BasicValidator with
        | none => simp [AuthNoKey, hne, hb, hbs, hbc, hbav]
        | some v => simp [AuthNoKey, hne, hb, hbs, hbc, hbav]
  · cases hbs : strStarts auth "Bearer " with
    | true =>
        cases hbs2 : strStarts auth "Basic " with
        | true => simp [AuthNoKey, hne, hb, hbs, hbc, hbs2]
        | false => simp [AuthNoKey, hne, hb, hbs, hbc, hbs2]
    | false =>
        cases hbs2 : strStarts auth "Basic " with
        | true => simp [AuthNoKey, hne, hb, hbs, hbc, hbs2]
        | false => simp [AuthNoKey, hne, hb, hbs, hbc, hbs2]

/-- C4: the combined auth middleware tries branches in the fixed priority
order API key, then Bearer, then Basic.  A present API-key header with a
configured key validator decides the request alone (success attaches an
apikey auth result and calls the inner handler, failure answers 401
without consulting the other validators); otherwise the Bearer branch
applies when the `Authorization` header starts with `Bearer ` and a bearer
validator is configured; otherwise the Basic branch applies when it starts
with `Basic ` and a basic validator is configured; with no applicable
branch the answer is a 401 response.  The theorem quantifies over the
inner handler, so every failure equation shows the inner handler is never
invoked there. -/
theorem auth_combined_priority (config : AuthConfig) (next : Handler) (c : Ctx) :
    (∀ vk, config.APIKeyValidator = some vk → Ctx.Get c config.APIKeyName ≠ "" →
        (vk (Ctx.Get c config.APIKeyName) = true →
            Auth config next c = next (Ctx.SetAuth c (some
              { type := "apikey", value := Ctx.Get c config.APIKeyName, username := ""
                password := "", valid := true }))) ∧
        (vk (Ctx.Get c config.APIKeyName) = false →
            Auth config next c = Ctx.Unauthorized c "invalid API key")) ∧
    ((Ctx.Get c config.APIKeyName = "" ∨ config.APIKeyValidator = none) →
      (Ctx.Get c "Authorization" = "" →
          Auth config next c = Ctx.Unauthorized
            (Ctx.Set c "WWW-Authenticate" "Basic realm=\"Restricted\"")
            "missing authorization") ∧
      (∀ vb, config.BearerValidator = some vb →
          strStarts (Ctx.Get c "Authorization") "Bearer " = true →
          (vb (strDrop (Ctx.Get c "Authorization") 7) = true →
              Auth config next c = next (Ctx.SetAuth c (some
                { type := "bearer", value := strDrop (Ctx.Get c "Authorization") 7
                  username := "", password := "", valid := true }))) ∧
          (vb (strDrop (Ctx.Get c "Authorization") 7) = false →
              Auth config next c = Ctx.Unauthorized c "invalid token")) ∧
      ((strStarts (Ctx.Get c "Authorization") "Bearer " = false ∨
          config.BearerValidator = none) →
        (∀ vba, config.BasicValidator = some vba →
            strStarts (Ctx.Get c "Authorization") "Basic " = true →
            (∀ decoded u p,
                base64Decode (strDrop (Ctx.Get c "Authorization") 6) = some decoded →
                splitNc decoded ':' 2 = [u, p] →
                (vba u p = true →
                    Auth config next c = next (Ctx.SetAuth c (some
                      { type := "basic", value := "", username := u, password := p
                        valid := true }))) ∧
                (vba u p = false →
                    Auth config next c = Ctx.Unauthorized c "invalid credentials")) ∧
            (base64Decode (strDrop (Ctx.Get c "Authorization") 6) = none →
                Auth config next c = Ctx.Unauthorized c "invalid base64 encoding")) ∧
        (Ctx.Get c "Authorization" ≠ "" →
          (strStarts (Ctx.Get c "Authorization") "Basic " = false ∨
              config.BasicValidator = none) →
          Auth config next c = Ctx.Unauthorized c "invalid authorization"))) := by
  constructor
  · intro vk hv hk
    rw [Auth_api_branch config next c vk hv hk]
    constructor
    · intro ht; rw [if_pos ht]
    · intro hf; rw [if_neg (by simp [hf])]
  · intro hno
    rw [Auth_no_api config next c hno]
    refine ⟨?_, ?_, ?_⟩
    · intro hemp
      rw [hemp]
      rfl
    · intro vb hvb hpre
      have hne : Ctx.Get c "Authorization" ≠ "" := by
        intro hemp
        rw [hemp] at hpre
        simp [strStarts] at hpre
      rw [AuthNoKey_bearer config next c _ vb hne hvb hpre]
      constructor
      · intro ht; rw [if_pos ht]
      · intro hf; rw [if_neg (by simp [hf])]
    · intro hb
      constructor
      · intro vba hvba hpre
        have hne : Ctx.Get c "Authorization" ≠ "" := by
          intro hemp
          rw [hemp] at hpre
          simp [strStarts] at hpre
        rw [AuthNoKey_basic config next c _ vba hne hb hvba hpre]
        constructor
        · intro decoded u p hdec hsplit
          simp only [hdec, hsplit]
          constructor
          · intro ht; rw [if_pos ht]
          · intro hf; rw [if_neg (by simp [hf])]
        · intro hdec
          simp only [hdec]
      · intro hne hbc
        rw [AuthNoKey_reject config next c _ hne hb hbc]

/-- A combined-auth configuration with all three validators set. -/
def cfgAll : AuthConfig :=
  { BasicValidator := some (fun u p => u == "admin" && p == "secret")
    BearerValidator := some (fun t => t == "tok")
    APIKeyValidator := some (fun k => k == "k1")
    APIKeyName := "X-API-Key" }

/-- A request presenting a valid API key. -/
def ctxKey : Ctx := acquireCtx newCtx (mkFctx "GET" "/p" [("X-API-Key", "k1")])

/-- C4 (witness): with the API-key header present and valid, the combined
middleware attaches the apikey auth result and invokes the inner handler. -/
theorem auth_combined_priority_witness :
    Auth cfgAll hNoop ctxKey = hNoop (Ctx.SetAuth ctxKey (some
      { type := "apikey", value := Ctx.Get ctxKey cfgAll.APIKeyName, username := ""
        password := "", valid := true })) :=
  ((auth_combined_priority cfgAll hNoop ctxKey).1 (fun k => k == "k1") rfl
    (by decide)).1 (by decide)

/-! ## C10 — auth middlewares attach only valid results -/

theorem json_fst_auth (c : Ctx) (s : Int) (v : List (String × String)) :
    (Ctx.JSON c s v).fst.Auth = c.Auth := by
  cases hc : c.RequestCtx <;> simp [Ctx.JSON, hc]

theorem set_auth_field (c : Ctx) (k v : String) : (Ctx.Set c k v).Auth = c.Auth := by
  cases hc : c.RequestCtx <;> simp [Ctx.Set, hc]

theorem unauthorized_fst_auth (c : Ctx) (msg : String) :
    (Ctx.Unauthorized c msg).fst.Auth = c.Auth :=
  json_fst_auth c 401 [("error", msg)]

theorem basicAuth_inv (v : String → String → Bool) (next : Handler) (c : Ctx) :
    (∃ u p, v u p = true ∧
        BasicAuth v next c = next (Ctx.SetAuth c (some
          { type := "basic", value := "", username := u, password := p, valid := true }))) ∨
    ((BasicAuth v next c).fst.Auth = c.Auth ∧
      ∀ next', BasicAuth v next' c = BasicAuth v next c) := by
  by_cases hemp : Ctx.Get c "Authorization" = ""
  · right
    refine ⟨?_, fun next' => by simp [BasicAuth, hemp]⟩
    have : BasicAuth v next c = Ctx.Unauthorized
        (Ctx.Set c "WWW-Authenticate" "Basic realm=\"Restricted\"")
        "missing authorization header" := by simp [BasicAuth, hemp]
    rw [this, unauthorized_fst_auth, set_auth_field]
  · by_cases hpre : strStarts (Ctx.Get c "Authorization") "Basic " = true
    · cases hdec : base64Decode (strDrop (Ctx.Get c "Authorization") 6) with
      | none =>
          right
          refine ⟨?_, fun next' => by simp [BasicAuth, hemp, hpre, hdec]⟩
          have : BasicAuth v next c = Ctx.Unauthorized c "invalid base64 encoding" := by
            simp [BasicAuth, hemp, hpre, hdec]
          rw [this, unauthorized_fst_auth]
      | some decoded =>
          cases hsp : splitNc decoded ':' 2 with
          | nil =>
              right
              refine ⟨?_, fun next' => by simp [BasicAuth, hemp, hpre, hdec, hsp]⟩
              have : BasicAuth v next c = Ctx.Unauthorized c "invalid credentials format" := by
                simp [BasicAuth, hemp, hpre, hdec, hsp]
              rw [this, unauthorized_fst_auth]
          | cons u rest =>
              cases rest with
              | nil =>
                  right
                  refine ⟨?_, fun next' => by simp [BasicAuth, hemp, hpre, hdec, hsp]⟩
                  have : BasicAuth v next c =
                      Ctx.Unauthorized c "invalid credentials format" := by
                    simp [BasicAuth, hemp, hpre, hdec, hsp]
                  rw [this, unauthorized_fst_auth]
              | cons p rest2 =>
                  cases rest2 with
                  | nil =>
                      by_cases hv : v u p = true
                      · left
                        exact ⟨u, p, hv, by simp [BasicAuth, hemp, hpre, hdec, hsp, hv]⟩
                      · right
                        refine ⟨?_, fun next' => by
                          simp [BasicAuth, hemp, hpre, hdec, hsp, hv]⟩
                        have : BasicAuth v next c =
                            Ctx.Unauthorized c "invalid credentials" := by
                          simp [BasicAuth, hemp, hpre, hdec, hsp, hv]
                        rw [this, unauthorized_fst_auth]
                  | cons x rest3 =>
                      right
                      refine ⟨?_, fun next' => by simp [BasicAuth, hemp, hpre, hdec, hsp]⟩
                      have : BasicAuth v next c =
                          Ctx.Unauthorized c "invalid credentials format" := by
                        simp [BasicAuth, hemp, hpre, hdec, hsp]
                      rw [this, unauthorized_fst_auth]
    · right
      refine ⟨?_, fun next' => by simp [BasicAuth, hemp, hpre]⟩
      have : BasicAuth v next c = Ctx.Unauthorized c "invalid authorization type" := by
        simp [BasicAuth, hemp, hpre]
      rw [this, unauthorized_fst_auth]

theorem bearerAuth_inv (v : String → Bool) (next : Handler) (c : Ctx) :
    (∃ t, v t = true ∧
        BearerAuth v next c = next (Ctx.SetAuth c (some
          { type := "bearer", value := t, username := "", password := "", valid := true }))) ∨
    ((BearerAuth v next c).fst.Auth = c.Auth ∧
      ∀ next', BearerAuth v next' c = BearerAuth v next c) := by
  by_cases hemp : Ctx.Get c "Authorization" = ""
  · right
    refine ⟨?_, fun next' => by simp [BearerAuth, hemp]⟩
    have : BearerAuth v next c = Ctx.Unauthorized c "missing authorization header" := by
      simp [BearerAuth, hemp]
    rw [this, unauthorized_fst_auth]
  · by_cases hpre : strStarts (Ctx.Get c "Authorization") "Bearer " = true
    · by_cases hv : v (strDrop (Ctx.Get c "Authorization") 7) = true
      · left
        exact ⟨strDrop (Ctx.Get c "Authorization") 7, hv,
          by simp [BearerAuth, hemp, hpre, hv]⟩
      · right
        refine ⟨?_, fun next' => by simp [BearerAuth, hemp, hpre, hv]⟩
        have : BearerAuth v next c = Ctx.Unauthorized c "invalid token" := by
          simp [BearerAuth, hemp, hpre, hv]
        rw [this, unauthorized_fst_auth]
    · right
      refine ⟨?_, fun next' => by simp [BearerAuth, hemp, hpre]⟩
      have : BearerAuth v next c = Ctx.Unauthorized c "invalid authorization type" := by
        simp [BearerAuth, hemp, hpre]
      rw [this, unauthorized_fst_auth]

theorem apikeyAuth_inv (v : String → Bool) (hn : String) (next : Handler) (c : Ctx) :
    (∃ k, v k = true ∧
        APIKeyAuth v hn next c = next (Ctx.SetAuth c (some
          { type := "apikey", value := k, username := "", password := "", valid := true }))) ∨
    ((APIKeyAuth v hn next c).fst.Auth = c.Auth ∧
      ∀ next', APIKeyAuth v hn next' c = APIKeyAuth v hn next c) := by
  by_cases hemp : Ctx.Get c (if hn = "" then "X-API-Key" else hn) = ""
  · right
    refine ⟨?_, fun next' => by simp [APIKeyAuth, hemp]⟩
    have : APIKeyAuth v hn next c = Ctx.Unauthorized c "missing API key" := by
      simp [APIKeyAuth, hemp]
    rw [this, unauthorized_fst_auth]
  · by_cases hv : v (Ctx.Get c (if hn = "" then "X-API-Key" else hn)) = true
    · left
      exact ⟨Ctx.Get c (if hn = "" then "X-API-Key" else hn), hv,
        by simp [APIKeyAuth, hemp, hv]⟩
    · right
      refine ⟨?_, fun next' => by simp [APIKeyAuth, hemp, hv]⟩
      have : APIKeyAuth v hn next c = Ctx.Unauthorized c "invalid API key" := by
        simp [APIKeyAuth, hemp, hv]
      rw [this, unauthorized_fst_auth]

theorem combinedBasicStage_inv (config : AuthConfig) (next : Handler) (c : Ctx)
    (hno : Ctx.Get c config.APIKeyName = "" ∨ config.APIKeyValidator = none)
    (hemp : Ctx.Get c "Authorization" ≠ "")
    (hb : strStarts (Ctx.Get c "Authorization") "Bearer " = false ∨
        config.BearerValidator = none) :
    (∃ info, info.valid = true ∧
        (info.type = "apikey" ∨ info.type = "bearer" ∨ info.type = "basic") ∧
        Auth config next c = next (Ctx.SetAuth c (some info)) ∧
        (info.type = "basic" → ∃ vba, config.BasicValidator = some vba ∧
            vba info.username info.password = true)) ∨
    ((Auth config next c).fst.Auth = c.Auth ∧
      ∀ next', Auth config next' c = Auth config next c) := by
  have hrw : ∀ n : Handler, Auth config n c =
      AuthNoKey config n c (Ctx.Get c "Authorization") := fun n => Auth_no_api config n c hno
  cases hbav : config.BasicValidator with
  | none =>
      right
      have heq : ∀ n : Handler, Auth config n c =
          Ctx.Unauthorized c "invalid authorization" := fun n => by
        rw [hrw n, AuthNoKey_reject config n c _ hemp hb (Or.inr hbav)]
      exact ⟨by rw [heq next, unauthorized_fst_auth], fun next' => by rw [heq next', heq next]⟩
  | some vba =>
      by_cases hbs : strStarts (Ctx.Get c "Authorization") "Basic " = true
      · cases hdec : base64Decode (strDrop (Ctx.Get c "Authorization") 6) with
        | none =>
            right
            have heq : ∀ n : Handler, Auth config n c =
                Ctx.Unauthorized c "invalid base64 encoding" := fun n => by
              rw [hrw n, AuthNoKey_basic config n c _ vba hemp hb hbav hbs]
              simp only [hdec]
            exact ⟨by rw [heq next, unauthorized_fst_auth],
              fun next' => by rw [heq next', heq next]⟩
        | some decoded =>
            cases hsp : splitNc decoded ':' 2 with
            | nil =>
                right
                have heq : ∀ n : Handler, Auth config n c =
                    Ctx.Unauthorized c "invalid credentials format" := fun n => by
                  rw [hrw n, AuthNoKey_basic config n c _ vba hemp hb hbav hbs]
                  simp only [hdec, hsp]
                exact ⟨by rw [heq next, unauthorized_fst_auth],
                  fun next' => by rw [heq next', heq next]⟩
            | cons u rest =>
                cases rest with
                | nil =>
                    right
                    have heq : ∀ n : Handler, Auth config n c =
                        Ctx.Unauthorized c "invalid credentials format" := fun n => by
                      rw [hrw n, AuthNoKey_basic config n c _ vba hemp hb hbav hbs]
                      simp only [hdec, hsp]
                    exact ⟨by rw [heq next, unauthorized_fst_auth],
                      fun next' => by rw [heq next', heq next]⟩
                | cons p rest2 =>
                    cases rest2 with
                    | nil =>
                        by_cases hvv : vba u p = true
                        · left
                          refine ⟨{ type := "basic", value := "", username := u
                                    password := p, valid := true }, rfl,
                            Or.inr (Or.inr rfl), ?_, fun _ => ⟨vba, rfl, hvv⟩⟩
                          rw [hrw next, AuthNoKey_basic config next c _ vba hemp hb hbav hbs]
                          simp only [hdec, hsp]
                          rw [if_pos hvv]
                        · right
                          have heq : ∀ n : Handler, Auth config n c =
                              Ctx.Unauthorized c "invalid credentials" := fun n => by
                            rw [hrw n, AuthNoKey_basic config n c _ vba hemp hb hbav hbs]
                            simp only [hdec, hsp]
                            rw [if_neg (by simp [hvv])]
                          exact ⟨by rw [heq next, unauthorized_fst_auth],
                            fun next' => by rw [heq next', heq next]⟩
                    | cons x rest3 =>
                        right
                        have heq : ∀ n : Handler, Auth config n c =
                            Ctx.Unauthorized c "invalid credentials format" := fun n => by
                          rw [hrw n, AuthNoKey_basic config n c _ vba hemp hb hbav hbs]
                          simp only [hdec, hsp]
                        exact ⟨by rw [heq next, unauthorized_fst_auth],
                          fun next' => by rw [heq next', heq next]⟩
      · right
        have hbs2 : strStarts (Ctx.Get c "Authorization") "Basic " = false := by
          simpa using hbs
        have heq : ∀ n : Handler, Auth config n c =
            Ctx.Unauthorized c "invalid authorization" := fun n => by
          rw [hrw n, AuthNoKey_reject config n c _ hemp hb (Or.inl hbs2)]
        exact ⟨by rw [heq next, unauthorized_fst_auth], fun next' => by rw [heq next', heq next]⟩

theorem combinedAuthNoKey_inv (config : AuthConfig) (next : Handler) (c : Ctx)
    (hno : Ctx.Get c config.APIKeyName = "" ∨ config.APIKeyValidator = none) :
    (∃ info, info.valid = true ∧
        (info.type = "apikey" ∨ info.type = "bearer" ∨ info.type = "basic") ∧
        Auth config next c = next (Ctx.SetAuth c (some info)) ∧
        (info.type = "basic" → ∃ vba, config.BasicValidator = some vba ∧
            vba info.username info.password = true)) ∨
    ((Auth config next c).fst.Auth = c.Auth ∧
      ∀ next', Auth config next' c = Auth config next c) := by
  have hrw : ∀ n : Handler, Auth config n c =
      AuthNoKey config n c (Ctx.Get c "Authorization") := fun n => Auth_no_api config n c hno
  by_cases hemp : Ctx.Get c "Authorization" = ""
  · right
    have heq : ∀ n : Handler, Auth config n c = Ctx.Unauthorized
        (Ctx.Set c "WWW-Authenticate" "Basic realm=\"Restricted\"")
        "missing authorization" := fun n => by
      rw [hrw n, hemp]
      rfl
    exact ⟨by rw [heq next, unauthorized_fst_auth, set_auth_field],
      fun next' => by rw [heq next', heq next]⟩
  · by_cases hbt : strStarts (Ctx.Get c "Authorization") "Bearer " = true
    · cases hbv : config.BearerValidator with
      | some vb =>
          by_cases hvt : vb (strDrop (Ctx.Get c "Authorization") 7) = true
          · left
            refine ⟨{ type := "bearer", value := strDrop (Ctx.Get c "Authorization") 7
                      username := "", password := "", valid := true }, rfl,
              Or.inr (Or.inl rfl), ?_, fun habs => by simp at habs⟩
            rw [hrw next, AuthNoKey_bearer config next c _ vb hemp hbv hbt, if_pos hvt]
          · right
            have heq : ∀ n : Handler, Auth config n c =
                Ctx.Unauthorized c "invalid token" := fun n => by
              rw [hrw n, AuthNoKey_bearer config n c _ vb hemp hbv hbt,
                if_neg (by simp [hvt])]
            exact ⟨by rw [heq next, unauthorized_fst_auth],
              fun next' => by rw [heq next', heq next]⟩
      | none => exact combinedBasicStage_inv config next c hno hemp (Or.inr hbv)
    · have hbt2 : strStarts (Ctx.Get c "Authorization") "Bearer " = false := by simpa using hbt
      exact combinedBasicStage_inv config next c hno hemp (Or.inl hbt2)

theorem combinedAuth_inv (config : AuthConfig) (next : Handler) (c : Ctx) :
    (∃ info, info.valid = true ∧
        (info.type = "apikey" ∨ info.type = "bearer" ∨ info.type = "basic") ∧
        Auth config next c = next (Ctx.SetAuth c (some info)) ∧
        (info.type = "basic" → ∃ vba, config.BasicValidator = some vba ∧
            vba info.username info.password = true)) ∨
    ((Auth config next c).fst.Auth = c.Auth ∧
      ∀ next', Auth config next' c = Auth config next c) := by
  by_cases hk : Ctx.Get c config.APIKeyName = ""
  · exact combinedAuthNoKey_inv config next c (Or.inl hk)
  · cases hv : config.APIKeyValidator with
    | none => exact combinedAuthNoKey_inv config next c (Or.inr hv)
    | some vk =>
        by_cases hvk : vk (Ctx.Get c config.APIKeyName) = true
        · left
          refine ⟨{ type := "apikey", value := Ctx.Get c config.APIKeyName
                    username := "", password := "", valid := true }, rfl,
            Or.inl rfl, ?_, fun habs => by simp at habs⟩
          rw [Auth_api_branch config next c vk hv hk, if_pos hvk]
        · right
          have heq : ∀ n : Handler, Auth config n c =
              Ctx.Unauthorized c "invalid API key" := fun n => by
            rw [Auth_api_branch config n c vk hv hk, if_neg (by simp [hvk])]
          exact ⟨by rw [heq next, unauthorized_fst_auth],
            fun next' => by rw [heq next', heq next]⟩

/-- C10: for each auth middleware (basic, bearer, API key and combined)
and every request, either the inner handler is invoked on a context whose
attached `AuthInfo` is `valid = true` with the scheme-appropriate type
(and, for the basic scheme, carries the username and plaintext password
the validator accepted), or the inner handler is never invoked and the
context's auth result is left untouched — so no middleware ever attaches
an invalid auth result. -/
theorem auth_attach_valid_invariant :
    (∀ (v : String → String → Bool) (next : Handler) (c : Ctx),
      (∃ u p, v u p = true ∧
          BasicAuth v next c = next (Ctx.SetAuth c (some
            { type := "basic", value := "", username := u, password := p
              valid := true }))) ∨
      ((BasicAuth v next c).fst.Auth = c.Auth ∧
        ∀ next', BasicAuth v next' c = BasicAuth v next c)) ∧
    (∀ (v : String → Bool) (next : Handler) (c : Ctx),
      (∃ t, v t = true ∧
          BearerAuth v next c = next (Ctx.SetAuth c (some
            { type := "bearer", value := t, username := "", password := ""
              valid := true }))) ∨
      ((BearerAuth v next c).fst.Auth = c.Auth ∧
        ∀ next', BearerAuth v next' c = BearerAuth v next c)) ∧
    (∀ (v : String → Bool) (hn : String) (next : Handler) (c : Ctx),
      (∃ k, v k = true ∧
          APIKeyAuth v hn next c = next (Ctx.SetAuth c (some
            { type := "apikey", value := k, username := "", password := ""
              valid := true }))) ∨
      ((APIKeyAuth v hn next c).fst.Auth = c.Auth ∧
        ∀ next', APIKeyAuth v hn next' c = APIKeyAuth v hn next c)) ∧
    (∀ (config : AuthConfig) (next : Handler) (c : Ctx),
      (∃ info, info.valid = true ∧
          (info.type = "apikey" ∨ info.type = "bearer" ∨ info.type = "basic") ∧
          Auth config next c = next (Ctx.SetAuth c (some info)) ∧
          (info.type = "basic" → ∃ vba, config.BasicValidator = some vba ∧
              vba info.username info.password = true)) ∨
      ((Auth config next c).fst.Auth = c.Auth ∧
        ∀ next', Auth config next' c = Auth config next c)) :=
  ⟨basicAuth_inv, bearerAuth_inv, apikeyAuth_inv, combinedAuth_inv⟩

/-- The spec's basic-auth scenario context: `Authorization: Basic
YWRtaW46c2VjcmV0` (admin:secret). -/
def ctxBasic : Ctx :=
  acquireCtx newCtx (mkFctx "GET" "/p" [("Authorization", "Basic YWRtaW46c2VjcmV0")])

/-- C10 (witness): the invariant instantiated at the basic middleware on
the spec's admin:secret scenario. -/
theorem auth_attach_valid_invariant_witness :
    (∃ u p, (fun u p => u == "admin" && p == "secret") u p = true ∧
        BasicAuth (fun u p => u == "admin" && p == "secret") hNoop ctxBasic =
          hNoop (Ctx.SetAuth ctxBasic (some
            { type := "basic", value := "", username := u, password := p
              valid := true }))) ∨
    ((BasicAuth (fun u p => u == "admin" && p == "secret") hNoop ctxBasic).fst.Auth =
        ctxBasic.Auth ∧
      ∀ next', BasicAuth (fun u p => u == "admin" && p == "secret") next' ctxBasic =
        BasicAuth (fun u p => u == "admin" && p == "secret") hNoop ctxBasic) :=
  auth_attach_valid_invariant.1 (fun u p => u == "admin" && p == "secret") hNoop ctxBasic

/-! ## C5 — equivalence of the two metrics renderings -/

theorem strDropRight_bucket (s : String) : strDropRight (s ++ "_bucket") 7 = s := by
  have h7 : ("_bucket" : String).data.length = 7 := rfl
  simp only [strDropRight, String.data_append, List.length_append, h7, Nat.add_sub_cancel]
  rw [List.take_left]

theorem counterLines_mem (l : List (String × Int))
    (mk : String → String → String → Int → PromLine)
    (hinj : ∀ a b c v a' b' c' v', mk a b c v = mk a' b' c' v' →
        a = a' ∧ b = b' ∧ c = c' ∧ v = v')
    (a b c : String) (v : Int) :
    mk a b c v ∈ (sortStrings (l.map Prod.fst)).filterMap (fun key =>
        match l.lookup key with
        | some w =>
            match splitNc key '_' 3 with
            | [x, y, z] => some (mk x y z w)
            | _ => none
        | none => none) ↔
      ∃ k, l.lookup k = some v ∧ splitNc k '_' 3 = [a, b, c] := by
  constructor
  · intro hmem
    obtain ⟨key, hkey, hf⟩ := List.mem_filterMap.mp hmem
    rcases hlk : l.lookup key with _ | w
    · rw [hlk] at hf; simp at hf
    · rw [hlk] at hf
      rcases hsp : splitNc key '_' 3 with _ | ⟨x, _ | ⟨y, _ | ⟨z, _ | ⟨w4, r⟩⟩⟩⟩
      · rw [hsp] at hf; simp at hf
      · rw [hsp] at hf; simp at hf
      · rw [hsp] at hf; simp at hf
      · rw [hsp] at hf
        simp only [Option.some.injEq] at hf
        obtain ⟨h1, h2, h3, h4⟩ := hinj _ _ _ _ _ _ _ _ hf
        subst h1; subst h2; subst h3; subst h4
        exact ⟨key, hlk, hsp⟩
      · rw [hsp] at hf; simp at hf
  · rintro ⟨k, hlk, hsp⟩
    apply List.mem_filterMap.mpr
    exact ⟨k, (mem_sortStrings _ _).mpr (lookup_mem_fst _ _ _ hlk), by rw [hlk, hsp]⟩

theorem counter_notin_mismatch (l : List (String × Int))
    (mk : String → String → String → Int → PromLine) (line : PromLine)
    (hdiff : ∀ x y z w, mk x y z w ≠ line) :
    line ∉ (sortStrings (l.map Prod.fst)).filterMap (fun key =>
        match l.lookup key with
        | some w =>
            match splitNc key '_' 3 with
            | [x, y, z] => some (mk x y z w)
            | _ => none
        | none => none) := by
  intro h
  obtain ⟨key, hkey, hf⟩ := List.mem_filterMap.mp h
  rcases hlk : l.lookup key with _ | w
  · rw [hlk] at hf; simp at hf
  · rw [hlk] at hf
    rcases hsp : splitNc key '_' 3 with _ | ⟨x, _ | ⟨y, _ | ⟨z, _ | ⟨w4, r⟩⟩⟩⟩ <;>
      rw [hsp] at hf <;> simp at hf
    exact hdiff x y z w hf

theorem strEnds_append (s p : String) : strEnds (s ++ p) p = true := by
  rw [strEnds, List.isSuffixOf_iff_suffix, String.data_append]
  exact List.suffix_append s.data p.data

theorem strEnds_untrim (k : String) (h : strEnds k "_bucket" = true) :
    strDropRight k 7 ++ "_bucket" = k := by
  rw [strEnds, List.isSuffixOf_iff_suffix] at h
  obtain ⟨t, ht⟩ := h
  have h7 : ("_bucket" : String).data.length = 7 := rfl
  have hlen : k.data.length - 7 = t.length := by
    rw [← ht, List.length_append, h7, Nat.add_sub_cancel]
  apply String.ext
  rw [String.data_append]
  show k.data.take (k.data.length - 7) ++ ("_bucket" : String).data = k.data
  rw [hlen, ← ht, List.take_left]

theorem lookup_mem {α : Type} (l : List (String × α)) (k : String) (v : α)
    (h : l.lookup k = some v) : (k, v) ∈ l := by
  induction l with
  | nil => simp [List.lookup] at h
  | cons kv rest ih =>
      obtain ⟨k₀, v₀⟩ := kv
      by_cases h0 : k = k₀
      · subst h0
        have hv : v₀ = v := by simpa [List.lookup] using h
        subst hv
        exact List.mem_cons_self _ _
      · have hb : (k == k₀) = false := by simp [h0]
        simp [List.lookup, hb] at h
        exact List.mem_cons_of_mem _ (ih h)

theorem mem_lookup_nodup {α : Type} (l : List (String × α))
    (hnd : (l.map Prod.fst).Nodup) (k : String) (e : α) (h : (k, e) ∈ l) :
    l.lookup k = some e := by
  induction l with
  | nil => simp at h
  | cons kv rest ih =>
      obtain ⟨k₀, v₀⟩ := kv
      simp only [List.map_cons, List.nodup_cons] at hnd
      rcases List.mem_cons.mp h with heq | hmem
      · have h1 : k = k₀ := congrArg Prod.fst heq
        have h2 : e = v₀ := congrArg Prod.snd heq
        subst h1
        subst h2
        simp [List.lookup]
      · have hk : ¬ k = k₀ := by
          intro hkk
          subst hkk
          exact hnd.1 (List.mem_map.mpr ⟨(k, e), hmem, rfl⟩)
        have hb : (k == k₀) = false := by simp [hk]
        simp [List.lookup, hb]
        exact ih hnd.2 hmem

/-- The JSON latency Range panics exactly when some `_bucket`-suffixed key
holds a mutex (the `*LatencyBucket` type assertion fails on it). -/
theorem jsonLatencies_eq_none (l : List (String × LatEntry)) :
    jsonLatencies l = none ↔
      ∃ p ∈ l, strEnds p.1 "_bucket" = true ∧ p.2 = LatEntry.mutex := by
  induction l with
  | nil => simp [jsonLatencies]
  | cons kv rest ih =>
      obtain ⟨k, e⟩ := kv
      by_cases hs : strEnds k "_bucket" = true
      · cases e with
        | mutex =>
            refine iff_of_true (by simp [jsonLatencies, hs]) ?_
            exact ⟨(k, LatEntry.mutex), List.mem_cons_self _ _, hs, rfl⟩
        | bucket b =>
            constructor
            · intro h
              simp [jsonLatencies, hs, Option.map_eq_none'] at h
              obtain ⟨p, hp, hps⟩ := ih.mp h
              exact ⟨p, List.mem_cons_of_mem _ hp, hps⟩
            · rintro ⟨p, hp, hp1, hp2⟩
              rcases List.mem_cons.mp hp with rfl | hp
              · simp at hp2
              · simp [jsonLatencies, hs, Option.map_eq_none']
                exact ih.mpr ⟨p, hp, hp1, hp2⟩
      · constructor
        · intro h
          simp [jsonLatencies, hs] at h
          obtain ⟨p, hp, hps⟩ := ih.mp h
          exact ⟨p, List.mem_cons_of_mem _ hp, hps⟩
        · rintro ⟨p, hp, hp1, hp2⟩
          rcases List.mem_cons.mp hp with rfl | hp
          · exact absurd hp1 hs
          · simp [jsonLatencies, hs]
            exact ih.mpr ⟨p, hp, hp1, hp2⟩

/-- The Prometheus latency loop panics exactly when some collected key
does not load as a `*LatencyBucket`. -/
theorem latLinesGo_eq_none (m : MetricsState) (keys : List String) :
    latLinesGo m keys = none ↔
      ∃ key ∈ keys, ∀ b, m.requestLatency.lookup key ≠ some (LatEntry.bucket b) := by
  induction keys with
  | nil => simp [latLinesGo]
  | cons key keys ih =>
      rcases hlk : m.requestLatency.lookup key with _ | e
      · exact iff_of_true (by simp [latLinesGo, hlk])
          ⟨key, List.mem_cons_self _ _, by simp [hlk]⟩
      · cases e with
        | mutex =>
            exact iff_of_true (by simp [latLinesGo, hlk])
              ⟨key, List.mem_cons_self _ _, by simp [hlk]⟩
        | bucket bu =>
            constructor
            · intro h
              simp only [latLinesGo, hlk, Option.map_eq_none'] at h
              obtain ⟨key', hk', hb⟩ := ih.mp h
              exact ⟨key', List.mem_cons_of_mem _ hk', hb⟩
            · rintro ⟨key', hk', hb⟩
              rcases List.mem_cons.mp hk' with rfl | hk'
              · exact absurd hlk (hb bu)
              · simp only [latLinesGo, hlk, Option.map_eq_none']
                exact ih.mpr ⟨key', hk', hb⟩

/-- With distinct stored keys, the Prometheus latency loop panics exactly
when the JSON latency Range does: both fail on a suffixed mutex entry. -/
theorem promLatencyKeys_none_iff (m : MetricsState)
    (hnd : (m.requestLatency.map Prod.fst).Nodup) :
    (∃ key ∈ promLatencyKeys m,
        ∀ b, m.requestLatency.lookup key ≠ some (LatEntry.bucket b)) ↔
      ∃ p ∈ m.requestLatency, strEnds p.1 "_bucket" = true ∧ p.2 = LatEntry.mutex := by
  constructor
  · rintro ⟨key, hkey, hb⟩
    have hk2 := (mem_sortStrings key _).mp hkey
    rw [List.mem_filter] at hk2
    obtain ⟨hkmem, hksuf⟩ := hk2
    obtain ⟨v, hv⟩ := mem_fst_exists_lookup _ _ hkmem
    cases v with
    | mutex => exact ⟨(key, LatEntry.mutex), lookup_mem _ _ _ hv, hksuf, rfl⟩
    | bucket b => exact absurd hv (hb b)
  · rintro ⟨⟨k, e⟩, hp, hsuf, he⟩
    obtain rfl : e = LatEntry.mutex := he
    refine ⟨k, ?_, ?_⟩
    · simp only [promLatencyKeys]
      rw [mem_sortStrings, List.mem_filter]
      exact ⟨List.mem_map.mpr ⟨(k, LatEntry.mutex), hp, rfl⟩, hsuf⟩
    · intro b
      rw [mem_lookup_nodup m.requestLatency hnd k LatEntry.mutex hp]
      simp

/-- A positive bucket reachable by lookup surfaces in the JSON latency map
under its trimmed key, with the mean computed at render time. -/
theorem jsonLatencies_lookup (l : List (String × LatEntry)) :
    ∀ lats, jsonLatencies l = some lats →
      ∀ (k : String) (bu : LatencyBucket),
        l.lookup (k ++ "_bucket") = some (LatEntry.bucket bu) → 0 < bu.count →
        lats.lookup k = some ((bu.sum : Rat) / (bu.count : Rat)) := by
  induction l with
  | nil =>
      intro lats _ k bu hlk _
      simp [List.lookup] at hlk
  | cons kv rest ih =>
      intro lats hj k bu hlk hc
      obtain ⟨k₀, e₀⟩ := kv
      by_cases h0 : k ++ "_bucket" = k₀
      · subst h0
        have he : e₀ = LatEntry.bucket bu := by simpa [List.lookup] using hlk
        subst he
        have hsuf : strEnds (k ++ "_bucket") "_bucket" = true := strEnds_append k "_bucket"
        simp [jsonLatencies, hsuf, strDropRight_bucket] at hj
        obtain ⟨tl, htl, hlats⟩ := hj
        rw [if_pos hc] at hlats
        subst hlats
        simp [List.lookup]
      · have hb : (k ++ "_bucket" == k₀) = false := by simp [h0]
        simp [List.lookup, hb] at hlk
        by_cases hs : strEnds k₀ "_bucket" = true
        · cases e₀ with
          | mutex => simp [jsonLatencies, hs] at hj
          | bucket b₀ =>
              simp [jsonLatencies, hs] at hj
              obtain ⟨tl, htl, hlats⟩ := hj
              by_cases hcb : 0 < b₀.count
              · rw [if_pos hcb] at hlats
                subst hlats
                have hne : (k == strDropRight k₀ 7) = false := by
                  refine beq_eq_false_iff_ne.mpr ?_
                  intro hkk
                  exact h0 (by rw [hkk]; exact strEnds_untrim k₀ hs)
                simp [List.lookup, hne]
                exact ih tl htl k bu hlk hc
              · rw [if_neg hcb] at hlats
                subst hlats
                exact ih tl htl k bu hlk hc
        · simp [jsonLatencies, hs] at hj
          exact ih lats hj k bu hlk hc

/-- Every line the Prometheus latency loop produces is a latency line. -/
theorem latLinesGo_shape (m : MetricsState) (keys : List String) :
    ∀ r, latLinesGo m keys = some r →
      ∀ line ∈ r, ∃ a b x, line = PromLine.latency a b x := by
  induction keys with
  | nil =>
      intro r hr line hline
      simp [latLinesGo] at hr
      subst hr
      simp at hline
  | cons key keys ih =>
      intro r hr line hline
      rcases hlk : m.requestLatency.lookup key with _ | e
      · simp [latLinesGo, hlk] at hr
      · cases e with
        | mutex => simp [latLinesGo, hlk] at hr
        | bucket bu =>
            simp only [latLinesGo, hlk] at hr
            obtain ⟨rest, hrest, hreq⟩ := Option.map_eq_some'.mp hr
            by_cases hc : 0 < bu.count
            · rw [if_pos hc] at hreq
              rcases hsp : splitNc (strDropRight key 7) '_' 2 with
                _ | ⟨p, _ | ⟨q, _ | ⟨r3, rr⟩⟩⟩
              · simp only [hsp] at hreq
                subst hreq
                exact ih rest hrest line hline
              · simp only [hsp] at hreq
                subst hreq
                exact ih rest hrest line hline
              · simp only [hsp] at hreq
                subst hreq
                rcases List.mem_cons.mp hline with hhead | htail
                · exact ⟨p, q, _, hhead⟩
                · exact ih rest hrest line htail
              · simp only [hsp] at hreq
                subst hreq
                exact ih rest hrest line hline
            · rw [if_neg hc] at hreq
              subst hreq
              exact ih rest hrest line hline

/-- Membership in the latency section a successful Prometheus loop builds
over the collected keys. -/
theorem latLinesGo_mem (m : MetricsState) (keys : List String) :
    ∀ r, latLinesGo m keys = some r →
      ∀ a b x, PromLine.latency a b x ∈ r ↔
        ∃ key ∈ keys, ∃ bu,
          m.requestLatency.lookup key = some (LatEntry.bucket bu) ∧ 0 < bu.count ∧
          splitNc (strDropRight key 7) '_' 2 = [a, b] ∧
          x = (bu.sum : Rat) / (bu.count : Rat) := by
  induction keys with
  | nil =>
      intro r hr a b x
      simp [latLinesGo] at hr
      subst hr
      simp
  | cons key keys ih =>
      intro r hr a b x
      rcases hlk : m.requestLatency.lookup key with _ | e
      · simp [latLinesGo, hlk] at hr
      · cases e with
        | mutex => simp [latLinesGo, hlk] at hr
        | bucket bu =>
            simp only [latLinesGo, hlk] at hr
            obtain ⟨rest, hrest, hreq⟩ := Option.map_eq_some'.mp hr
            by_cases hc : 0 < bu.count
            · rw [if_pos hc] at hreq
              rcases hsp : splitNc (strDropRight key 7) '_' 2 with
                _ | ⟨p, _ | ⟨q, _ | ⟨r3, rr⟩⟩⟩
              · simp only [hsp] at hreq
                subst hreq
                rw [ih rest hrest a b x]
                constructor
                · rintro ⟨key', hk', hrest'⟩
                  exact ⟨key', List.mem_cons_of_mem _ hk', hrest'⟩
                · rintro ⟨key', hk', bu', h1, h2, h3, h4⟩
                  rcases List.mem_cons.mp hk' with rfl | hk'
                  · rw [hsp] at h3
                    simp at h3
                  · exact ⟨key', hk', bu', h1, h2, h3, h4⟩
              · simp only [hsp] at hreq
                subst hreq
                rw [ih rest hrest a b x]
                constructor
                · rintro ⟨key', hk', hrest'⟩
                  exact ⟨key', List.mem_cons_of_mem _ hk', hrest'⟩
                · rintro ⟨key', hk', bu', h1, h2, h3, h4⟩
                  rcases List.mem_cons.mp hk' with rfl | hk'
                  · rw [hsp] at h3
                    simp at h3
                  · exact ⟨key', hk', bu', h1, h2, h3, h4⟩
              · simp only [hsp] at hreq
                subst hreq
                constructor
                · intro hmem
                  rcases List.mem_cons.mp hmem with hhead | htail
                  · injection hhead with h1 h2 h3
                    subst h1
                    subst h2
                    subst h3
                    exact ⟨key, List.mem_cons_self _ _, bu, hlk, hc, hsp, rfl⟩
                  · obtain ⟨key', hk', hrest'⟩ := (ih rest hrest a b x).mp htail
                    exact ⟨key', List.mem_cons_of_mem _ hk', hrest'⟩
                · rintro ⟨key', hk', bu', h1, h2, h3, h4⟩
                  rcases List.mem_cons.mp hk' with rfl | hk'
                  · rw [hlk] at h1
                    have h1' : LatEntry.bucket bu = LatEntry.bucket bu' := Option.some.inj h1
                    injection h1' with hbu
                    subst hbu
                    rw [hsp] at h3
                    have h3' : p = a ∧ q = b := by simpa using h3
                    obtain ⟨rfl, rfl⟩ := h3'
                    exact List.mem_cons.mpr (Or.inl (by rw [h4]))
                  · exact List.mem_cons.mpr
                      (Or.inr ((ih rest hrest a b x).mpr ⟨key', hk', bu', h1, h2, h3, h4⟩))
              · simp only [hsp] at hreq
                subst hreq
                rw [ih rest hrest a b x]
                constructor
                · rintro ⟨key', hk', hrest'⟩
                  exact ⟨key', List.mem_cons_of_mem _ hk', hrest'⟩
                · rintro ⟨key', hk', bu', h1, h2, h3, h4⟩
                  rcases List.mem_cons.mp hk' with rfl | hk'
                  · rw [hsp] at h3
                    simp at h3
                  · exact ⟨key', hk', bu', h1, h2, h3, h4⟩
            · rw [if_neg hc] at hreq
              subst hreq
              rw [ih rest hrest a b x]
              constructor
              · rintro ⟨key', hk', hrest'⟩
                exact ⟨key', List.mem_cons_of_mem _ hk', hrest'⟩
              · rintro ⟨key', hk', bu', h1, h2, h3, h4⟩
                rcases List.mem_cons.mp hk' with rfl | hk'
                · rw [hlk] at h1
                  have h1' : LatEntry.bucket bu = LatEntry.bucket bu' := Option.some.inj h1
                  injection h1' with hbu
                  subst hbu
                  exact absurd h2 hc
                · exact ⟨key', hk', bu', h1, h2, h3, h4⟩

/-- C5: for every metrics state with distinct stored keys, the plain-text
rendering and the structured snapshot rendering agree: they panic on
exactly the same states (a `_bucket`-suffixed mutex entry), and when both
render, a request (or error) line with labels `(a, b, c)` and value `v`
appears in the text exactly when the snapshot's map holds `v` under a
composite key splitting into those labels, and a latency line appears
exactly when a positive bucket is stored under the suffixed key — both
renderings then exposing the same mean, computed as sum/count at render
time. -/
theorem metrics_render_equiv (m : MetricsState) (up : Rat)
    (hnd : (m.requestLatency.map Prod.fst).Nodup) :
    (ToPrometheus m up = none ↔ ToJSON m up = none) ∧
    ∀ lines js, ToPrometheus m up = some lines → ToJSON m up = some js →
      (∀ a b c v, PromLine.request a b c v ∈ lines ↔
          ∃ k, js.Requests.lookup k = some v ∧ splitNc k '_' 3 = [a, b, c]) ∧
      (∀ a b c v, PromLine.error a b c v ∈ lines ↔
          ∃ k, js.Errors.lookup k = some v ∧ splitNc k '_' 3 = [a, b, c]) ∧
      (∀ a b x, PromLine.latency a b x ∈ lines ↔
          ∃ k bu, m.requestLatency.lookup (k ++ "_bucket") = some (LatEntry.bucket bu) ∧
            0 < bu.count ∧ x = (bu.sum : Rat) / (bu.count : Rat) ∧
            js.Latencies.lookup k = some x ∧ splitNc k '_' 2 = [a, b]) := by
  have hinjreq : ∀ (a b c : String) (v : Int) (a' b' c' : String) (v' : Int),
      PromLine.request a b c v = PromLine.request a' b' c' v' →
        a = a' ∧ b = b' ∧ c = c' ∧ v = v' := by
    intro a b c v a' b' c' v' h
    injection h with h1 h2 h3 h4
    exact ⟨h1, h2, h3, h4⟩
  have hinjerr : ∀ (a b c : String) (v : Int) (a' b' c' : String) (v' : Int),
      PromLine.error a b c v = PromLine.error a' b' c' v' →
        a = a' ∧ b = b' ∧ c = c' ∧ v = v' := by
    intro a b c v a' b' c' v' h
    injection h with h1 h2 h3 h4
    exact ⟨h1, h2, h3, h4⟩
  constructor
  · simp only [ToPrometheus, ToJSON, Option.map_eq_none']
    rw [latLinesGo_eq_none, jsonLatencies_eq_none]
    exact promLatencyKeys_none_iff m hnd
  · intro lines js hp hj
    simp only [ToPrometheus] at hp
    simp only [ToJSON] at hj
    obtain ⟨latLines, hlat, hlines⟩ := Option.map_eq_some'.mp hp
    obtain ⟨lats, hlats, hjs⟩ := Option.map_eq_some'.mp hj
    subst hlines
    subst hjs
    refine ⟨?_, ?_, ?_⟩
    · intro a b c v
      constructor
      · intro hmem
        rcases List.mem_append.mp hmem with hmem1 | htail
        · rcases List.mem_append.mp hmem1 with hmem2 | herr
          · rcases List.mem_append.mp hmem2 with hreq | hlat2
            · exact (counterLines_mem m.requestTotal PromLine.request hinjreq a b c v).mp hreq
            · obtain ⟨p, q, y, hline⟩ :=
                latLinesGo_shape m (promLatencyKeys m) latLines hlat _ hlat2
              simp at hline
          · exact absurd herr (counter_notin_mismatch m.errorTotal PromLine.error
              (PromLine.request a b c v) (fun x y z w => by simp))
        · simp at htail
      · rintro ⟨k, hlk, hsp⟩
        exact List.mem_append_left _ (List.mem_append_left _ (List.mem_append_left _
          ((counterLines_mem m.requestTotal PromLine.request hinjreq a b c v).mpr
            ⟨k, hlk, hsp⟩)))
    · intro a b c v
      constructor
      · intro hmem
        rcases List.mem_append.mp hmem with hmem1 | htail
        · rcases List.mem_append.mp hmem1 with hmem2 | herr
          · rcases List.mem_append.mp hmem2 with hreq | hlat2
            · exact absurd hreq (counter_notin_mismatch m.requestTotal PromLine.request
                (PromLine.error a b c v) (fun x y z w => by simp))
            · obtain ⟨p, q, y, hline⟩ :=
                latLinesGo_shape m (promLatencyKeys m) latLines hlat _ hlat2
              simp at hline
          · exact (counterLines_mem m.errorTotal PromLine.error hinjerr a b c v).mp herr
        · simp at htail
      · rintro ⟨k, hlk, hsp⟩
        exact List.mem_append_left _ (List.mem_append_right _
          ((counterLines_mem m.errorTotal PromLine.error hinjerr a b c v).mpr ⟨k, hlk, hsp⟩))
    · intro a b x
      constructor
      · intro hmem
        rcases List.mem_append.mp hmem with hmem1 | htail
        · rcases List.mem_append.mp hmem1 with hmem2 | herr
          · rcases List.mem_append.mp hmem2 with hreq | hlat2
            · exact absurd hreq (counter_notin_mismatch m.requestTotal PromLine.request
                (PromLine.latency a b x) (fun p q r w => by simp))
            · obtain ⟨key, hkey, bu, h1, h2, h3, h4⟩ :=
                (latLinesGo_mem m (promLatencyKeys m) latLines hlat a b x).mp hlat2
              have hk2 := (mem_sortStrings key _).mp hkey
              rw [List.mem_filter] at hk2
              have huntrim := strEnds_untrim key hk2.2
              refine ⟨strDropRight key 7, bu, ?_, h2, h4, ?_, h3⟩
              · rw [huntrim]
                exact h1
              · rw [h4]
                exact jsonLatencies_lookup m.requestLatency lats hlats
                  (strDropRight key 7) bu (by rw [huntrim]; exact h1) h2
          · exact absurd herr (counter_notin_mismatch m.errorTotal PromLine.error
              (PromLine.latency a b x) (fun p q r w => by simp))
        · simp at htail
      · rintro ⟨k, bu, h1, h2, h3, h4, h5⟩
        apply List.mem_append_left
        apply List.mem_append_left
        apply List.mem_append_right
        apply (latLinesGo_mem m (promLatencyKeys m) latLines hlat a b x).mpr
        refine ⟨k ++ "_bucket", ?_, bu, h1, h2, ?_, h3⟩
        · simp only [promLatencyKeys]
          rw [mem_sortStrings, List.mem_filter]
          exact ⟨lookup_mem_fst _ _ _ h1, strEnds_append k "_bucket"⟩
        · rw [strDropRight_bucket]
          exact h5

/-- A small metrics state for the witness: one counter per map and the
latency pair the observer stores, a mutex under the base key and a
positive bucket under the suffixed key. -/
def mWit : MetricsState :=
  { requestTotal := [("GET_/a_200", 3)]
    errorTotal := [("GET_/a_handler_error", 1)]
    requestLatency := [("GET_/a", LatEntry.mutex),
      ("GET_/a_bucket", LatEntry.bucket { sum := 10, count := 2 })]
    logCount := []
    activeConns := 1 }

/-- C5 (witness): the equivalence instantiated at `mWit`, whose stored
keys are distinct. -/
theorem metrics_render_equiv_witness :
    (mWit.requestLatency.map Prod.fst).Nodup ∧
    ((ToPrometheus mWit 0 = none ↔ ToJSON mWit 0 = none) ∧
      ∀ lines js, ToPrometheus mWit 0 = some lines → ToJSON mWit 0 = some js →
        (∀ a b c v, PromLine.request a b c v ∈ lines ↔
            ∃ k, js.Requests.lookup k = some v ∧ splitNc k '_' 3 = [a, b, c]) ∧
        (∀ a b c v, PromLine.error a b c v ∈ lines ↔
            ∃ k, js.Errors.lookup k = some v ∧ splitNc k '_' 3 = [a, b, c]) ∧
        (∀ a b x, PromLine.latency a b x ∈ lines ↔
            ∃ k bu, mWit.requestLatency.lookup (k ++ "_bucket") = some (LatEntry.bucket bu) ∧
              0 < bu.count ∧ x = (bu.sum : Rat) / (bu.count : Rat) ∧
              js.Latencies.lookup k = some x ∧ splitNc k '_' 2 = [a, b])) :=
  ⟨by decide, metrics_render_equiv mWit 0 (by decide)⟩
